import Mathlib

/-!
# serial_reader: a shallow embedding of `serial_reader.go`

The program lists the serial ports, opens the one selected with `-port`,
and copies what it reads from it to standard output and, with `-log_file`,
to a file, until an interrupt arrives or a read fails.

Everything the operating system decides (the enumerated ports, whether the
port opens, whether the log file can be created, what each read returns,
when an interrupt arrives, whether a file write or close fails) is an input
of the model, collected in `Env`; the program's effects are recorded in a
`World`.

The streaming part of the run (source lines 106-135) is a state machine
driven by a finite script of events, in the order of time: an interrupt is
delivered to the process, the goroutine of lines 109-117 is scheduled, the
main goroutine takes its next step, the read in flight returns. The channel
`c` is modelled with its buffer of one signal and its closed flag: a signal
sent on the closed channel stops the process with a panic. A script that
ends before the function returns leaves the run in the status `running`;
once the process has ended, events are not consumed. The control of the
loop alone is the transition system `Ctl`, the projection of the machine on
the flag, the number of reads started and the phase.
-/

namespace SerialReader

/-! ## Bytes, strings and formatting -/

abbrev Byte := UInt8

/-- A Go `string` (and the text of a Go `error`): an immutable byte sequence. -/
abbrev GoString := List Byte

/-- The bytes of an ASCII literal of the source. -/
def ascii (s : String) : GoString := s.toList.map (fun c => c.toNat.toUInt8)

/-- The verb `%d` applied to a non-negative integer: its decimal digits. -/
def fmtD (n : Nat) : GoString := ascii (Nat.repr n)

/-! ## The environment and the world -/

/-- What one call of `port.Read(data)` returns: the bytes it stored at the
start of the buffer (their number is the count `n`) and the error. -/
structure ReadResult where
  bytes : List Byte
  err : Option GoString
deriving DecidableEq, Repr

/-- What happens to the process while it is in its streaming part, in the
order of time: an interrupt is delivered (with the name of the signal) and
`os/signal` sends it on the channel `c` without blocking; the goroutine of
source lines 109-117 is scheduled; the main goroutine takes its next step;
the read in flight returns. -/
inductive LoopEvent where
  | interrupt (sig : GoString)
  | wake
  | proceed
  | readReturns (r : ReadResult)
deriving DecidableEq, Repr

/-- The operations the program performs on the outside world, in order. -/
inductive Op where
  | getPortsList
  | openPort (name : GoString) (baud : Int)
  | setReadTimeout (ms : Nat)
  | createFile (name : GoString)
  | notify
  | readCall
  | read (r : ReadResult)
  | forward (data : List Byte)
  | fileWrite (data : List Byte)
  | fileClose
  | portClose
  | closeChan
  | print (msg : GoString)
deriving DecidableEq, Repr

/-- The life of a resource (the serial port, the log file). -/
inductive Res where
  | unused
  | opened
  | closed
deriving DecidableEq, Repr

/-- The parsed command line (`flag.Parse`). -/
structure Flags where
  portNumber : Nat
  baud : Int
  logFile : GoString
deriving Repr

/-- The decisions of the operating system.
`uintBits` is the width of Go's `uint` on the platform (32 or 64).
`writeErr k` is the fate of the `k`-th write to the log file (counting from
0): `none` when all bytes are written, `some (m, e)` when only the first `m`
bytes are written and the write returns the error `e`. -/
structure Env where
  uintBits : Nat
  portsList : Except GoString (List GoString)
  openErr : GoString → Int → Option GoString
  createErr : GoString → Option GoString
  writeErr : Nat → Option (Nat × GoString)
  closeErr : Option GoString
  events : List LoopEvent

/-- The observable world: the console (standard output), the serial port,
the log file and its contents, the number of writes made to the file, and
the operations performed so far. -/
structure World where
  console : List Byte
  port : Res
  logFile : Res
  logData : List Byte
  fileWrites : Nat
  trace : List Op
deriving DecidableEq, Repr

/-- The world when the program starts. -/
def World.init : World :=
  { console := [], port := Res.unused, logFile := Res.unused, logData := [],
    fileWrites := 0, trace := [] }

/-- Record an operation. -/
def World.emit (w : World) (op : Op) : World :=
  { w with trace := w.trace ++ [op] }

/-- A `fmt.Printf` of `run()`: an informational or error message on standard
output. -/
def printf (w : World) (msg : GoString) : World :=
  { w with console := w.console ++ msg, trace := w.trace ++ [Op.print msg] }

/-! ## Files and the logWriter -/

/-- An `*os.File`. -/
structure OsFile where
  name : GoString
deriving DecidableEq, Repr

/-- The struct `logWriter`: `file` is `nil` or a file. -/
structure LogWriter where
  file : Option OsFile
deriving DecidableEq, Repr

/-- The text of `os.ErrClosed`. -/
def errClosed : GoString := ascii "file already closed"

/-- The text of `os.ErrInvalid`. -/
def errInvalid : GoString := ascii "invalid argument"

/-- The method `(*os.File).Close`: an error when the file is not open. -/
def osFileClose (env : Env) (_f : OsFile) (w : World) : World × Option GoString :=
  let w1 := w.emit Op.fileClose
  match w.logFile with
  | Res.opened => ({ w1 with logFile := Res.closed }, env.closeErr)
  | _ => (w1, some errClosed)

/-- The method `(*os.File).Write`: returns the count of written bytes and
the error. -/
def osFileWrite (env : Env) (_f : OsFile) (data : List Byte) (w : World) :
    World × Nat × Option GoString :=
  let w1 := w.emit (Op.fileWrite data)
  match w.logFile with
  | Res.opened =>
    match env.writeErr w.fileWrites with
    | none =>
      ({ w1 with logData := w.logData ++ data, fileWrites := w.fileWrites + 1 },
        data.length, none)
    | some (m, e) =>
      ({ w1 with logData := w.logData ++ data.take m, fileWrites := w.fileWrites + 1 },
        min m data.length, some e)
  | _ => (w1, 0, some errClosed)

/-- The function `newLogWriter` (source lines 23-31). On a failed
`os.Create` it returns a new error that wraps `e` behind the text "Failed
creating log file <name>: " (line 26), where its comment (lines 20-22) says
it returns `e`. -/
def newLogWriter (env : Env) (filename : GoString) (w : World) :
    World × Except GoString LogWriter :=
  let w1 := w.emit (Op.createFile filename)
  match env.createErr filename with
  | some e =>
    (w1, Except.error (ascii "Failed creating log file " ++ filename ++ ascii ": " ++ e))
  | none =>
    ({ w1 with logFile := Res.opened, logData := [], fileWrites := 0 },
      Except.ok { file := some { name := filename } })

/-- The method `logWriter.Close` (source lines 33-40). -/
def LogWriter.Close (env : Env) (lw : LogWriter) (w : World) :
    LogWriter × World × Option GoString :=
  match lw.file with
  | none => (lw, w, none)
  | some f =>
    let (w1, e) := osFileClose env f w
    ({ file := none }, w1, e)

/-- The method `logWriter.Write` (source lines 42-45): the data goes to
standard output, then to the file, whose result is returned. -/
def LogWriter.Write (env : Env) (lw : LogWriter) (data : List Byte) (w : World) :
    World × Nat × Option GoString :=
  let w1 := { w with console := w.console ++ data }
  match lw.file with
  | none => (w1, 0, some errInvalid)
  | some f => osFileWrite env f data w1

/-! ## run -/

/-- The destination `outputDst`: standard output, or the logWriter. -/
inductive Dst where
  | stdout
  | log (lw : LogWriter)
deriving DecidableEq, Repr

/-- The call `fmt.Fprintf(outputDst, "%s", data)`: one `Write` of `data` on
the destination; the loop ignores its result. -/
def fprintf (env : Env) (dst : Dst) (data : List Byte) (w : World) : World :=
  let w1 := w.emit (Op.forward data)
  match dst with
  | Dst.stdout => { w1 with console := w1.console ++ data }
  | Dst.log lw => (LogWriter.Write env lw data w1).1

/-- How far `run()` got: still in its streaming part when the script of
events ends, returned with an exit status, stopped by a run-time panic of
the main goroutine (the deferred calls run), or stopped by a panic of
another goroutine (no deferred call runs). -/
inductive Status where
  | running
  | exited (code : Nat)
  | panicked
  | crashed
deriving DecidableEq, Repr

/-- Where the main goroutine stands in the streaming part: before the
`Printf` of source line 118; before the test of `!shouldExit` (line 122);
after a test that passed and before the call of `port.Read` (line 123);
inside `port.Read`; after a failed read, with the flag set, the channel
closed and the message printed (lines 125-127), before `return 1`; returned
from `run()` with a status; stopped by a panic of the main goroutine;
stopped by a panic of another goroutine. -/
inductive Phase where
  | start
  | test
  | call
  | reading
  | failed
  | exited (code : Nat)
  | panicked
  | crashed
deriving DecidableEq, Repr

/-- The process has ended. -/
def Phase.isFinal : Phase → Bool
  | Phase.exited _ => true
  | Phase.panicked => true
  | Phase.crashed => true
  | _ => false

/-- The status of a run that has reached a phase. -/
def Phase.status : Phase → Status
  | Phase.exited code => Status.exited code
  | Phase.panicked => Status.panicked
  | Phase.crashed => Status.crashed
  | _ => Status.running

/-- The variables of the streaming part: the flag `shouldExit`; whether the
goroutine still waits at `<-c`; whether the channel `c` is closed; the
signal held in the buffer of `c` (`make(chan os.Signal, 1)`); and the buffer
`data`. -/
structure LoopVars where
  shouldExit : Bool
  listening : Bool
  chanClosed : Bool
  pending : Option GoString
  data : List Byte
deriving DecidableEq, Repr

/-- The state of the streaming part. -/
structure LoopState where
  vars : LoopVars
  world : World
  phase : Phase
deriving DecidableEq, Repr

/-- The result of `run()`: the world, the status, and the loop's variables
(`none` when the streaming part was never entered). -/
structure Outcome where
  world : World
  status : Status
  vars : Option LoopVars
deriving DecidableEq, Repr

/-- What `port.Read(data)` leaves in the buffer: the bytes read, then the
old contents. -/
def fillBuffer (buf : List Byte) (bytes : List Byte) : List Byte :=
  (bytes ++ buf.drop bytes.length).take buf.length

/-- The slice expression `data[0:n]`: `none` (a panic) when `n` exceeds the
capacity. -/
def slicePrefix (buf : List Byte) (n : Nat) : Option (List Byte) :=
  if n ≤ buf.length then some (buf.take n) else none

/-- The notice the goroutine prints for the signal it receives (source
line 115). -/
def notice (sig : GoString) : GoString :=
  ascii "Signal " ++ sig ++ ascii " pressed. Exiting after next read...\n"

/-- The message of source line 127. -/
def failure (portName e : GoString) : GoString :=
  ascii "Failed reading from " ++ portName ++ ascii ": " ++ e ++ ascii "\n"

/-- An interrupt is delivered: `os/signal` sends the signal on `c` without
blocking (`c` is registered by `signal.Notify` at source line 108 and never
unregistered). A send on a closed channel is a run-time panic; otherwise the
signal goes into the buffer, or is dropped when the buffer is full. -/
def deliver (sig : GoString) (s : LoopState) : LoopState :=
  if s.vars.chanClosed then { s with phase := Phase.crashed }
  else
    match s.vars.pending with
    | none => { s with vars := { s.vars with pending := some sig } }
    | some _ => s

/-- The goroutine of source lines 109-117 is scheduled. While it waits at
`s, ok := <-c`: a signal in the buffer is received (also after `close(c)`),
printed and the flag set; with the buffer empty and `c` closed it returns;
otherwise it stays blocked. -/
def goroutine (s : LoopState) : LoopState :=
  if s.vars.listening then
    match s.vars.pending with
    | some sig =>
      { s with
        vars := { s.vars with shouldExit := true, listening := false, pending := none }
        world := printf s.world (notice sig) }
    | none =>
      if s.vars.chanClosed then { s with vars := { s.vars with listening := false } } else s
  else s

/-- The message of source line 118. -/
def banner (portName : GoString) : GoString :=
  ascii "Reading from device " ++ portName ++ ascii ". Press ctrl+C to quit.\n"

/-- The main goroutine takes its next step: the `Printf` of source line
118; the test of `!shouldExit` (line 122), which leaves the loop for
`return 0` (line 135) or passes; the call of `port.Read` (line 123);
`return 1` after a failed read (line 128). Inside `port.Read` it is
blocked. A return includes the exit of the process. -/
def advance (portName : GoString) (s : LoopState) : LoopState :=
  match s.phase with
  | Phase.start => { s with world := printf s.world (banner portName), phase := Phase.test }
  | Phase.test =>
    if s.vars.shouldExit then { s with phase := Phase.exited 0 }
    else { s with phase := Phase.call }
  | Phase.call => { s with world := s.world.emit Op.readCall, phase := Phase.reading }
  | Phase.failed => { s with phase := Phase.exited 1 }
  | _ => s

/-- The read in flight returns `r`, and the main goroutine handles the
result up to the next test of the flag (source lines 123-134). -/
def readReturn (env : Env) (portName : GoString) (dst : Dst) (r : ReadResult)
    (s : LoopState) : LoopState :=
  match s.phase with
  | Phase.reading =>
    let w1 := s.world.emit (Op.read r)
    let v1 := { s.vars with data := fillBuffer s.vars.data r.bytes }
    let bytesRead := r.bytes.length
    match r.err with
    | some e =>
      { vars := { v1 with shouldExit := true, chanClosed := true }
        world := printf (w1.emit Op.closeChan) (failure portName e)
        phase := Phase.failed }
    | none =>
      if bytesRead == 0 then { vars := v1, world := w1, phase := Phase.test }
      else
        match slicePrefix v1.data bytesRead with
        | none => { vars := v1, world := w1, phase := Phase.panicked }
        | some chunk => { vars := v1, world := fprintf env dst chunk w1, phase := Phase.test }
  | _ => s

/-- One event of the script; nothing once the process has ended. -/
def loopStep (env : Env) (portName : GoString) (dst : Dst) (s : LoopState)
    (ev : LoopEvent) : LoopState :=
  if s.phase.isFinal then s
  else
    match ev with
    | LoopEvent.interrupt sig => deliver sig s
    | LoopEvent.wake => goroutine s
    | LoopEvent.proceed => advance portName s
    | LoopEvent.readReturns r => readReturn env portName dst r s

/-- The events of a script, in order. -/
def loopRun (env : Env) (portName : GoString) (dst : Dst) (s : LoopState)
    (evs : List LoopEvent) : LoopState :=
  evs.foldl (loopStep env portName dst) s

/-- The streaming part of `run` (source lines 118-135) on a script of
events, from the variables and the world it starts with. -/
def streamLoop (env : Env) (portName : GoString) (dst : Dst)
    (evs : List LoopEvent) (v : LoopVars) (w : World) : Outcome :=
  { world := (loopRun env portName dst { vars := v, world := w, phase := Phase.start } evs).world
    status := (loopRun env portName dst { vars := v, world := w, phase := Phase.start }
      evs).phase.status
    vars := some (loopRun env portName dst { vars := v, world := w, phase := Phase.start }
      evs).vars }

/-- The deferred `port.Close()` (source line 88). -/
def deferPortClose (w : World) : World :=
  { w.emit Op.portClose with port := Res.closed }

/-- Run the deferred calls when the function leaves (a return, or a panic of
the main goroutine); nothing when the script ended inside the streaming
part or when another goroutine stopped the process. -/
def withDefers (o : Outcome) (deferred : World → World) : Outcome :=
  match o.status with
  | Status.running => o
  | Status.crashed => o
  | _ => { o with world := deferred o.world }

/-- The conversion `uint(n)` of a non-negative `int`. -/
def uintOfLen (bits : Nat) (n : Nat) : Nat := n % 2 ^ bits

/-- The `uint` subtraction `a - b`, which wraps around. -/
def uintSub (bits : Nat) (a b : Nat) : Nat := (a + 2 ^ bits - b % 2 ^ bits) % 2 ^ bits

/-- The listing loop of source lines 68-70, from index `i`. -/
def printOptions (portsList : List GoString) (i : Nat) (w : World) : World :=
  if h : i < portsList.length then
    printOptions portsList (i + 1)
      (printf w (ascii " " ++ fmtD (i + 1) ++ ascii ": " ++ portsList.get ⟨i, h⟩ ++ ascii "\n"))
  else w
termination_by portsList.length - i

/-- The buffer `make([]byte, 512)`. -/
def newBuffer : List Byte := List.replicate 512 0

/-- The variables when the streaming part is entered: `shouldExit := false`
(source line 106), the goroutine waiting on the open and empty channel `c`
(lines 107-117), and the fresh buffer (line 119). -/
def initialVars : LoopVars :=
  { shouldExit := false, listening := true, chanClosed := false, pending := none,
    data := newBuffer }

/-- The function `run` (source lines 47-136), after `flag.Parse`. -/
def run (env : Env) (fl : Flags) : Outcome :=
  let w0 := World.init.emit Op.getPortsList
  match env.portsList with
  | Except.error e =>
    { world := printf w0 (ascii "Failed getting list of serial ports: " ++ e ++ ascii "\n"),
      status := Status.exited 1, vars := none }
  | Except.ok portsList =>
    if portsList.length == 0 then
      { world := printf w0 (ascii "No serial devices were found.\n"),
        status := Status.exited 0, vars := none }
    else if fl.portNumber == 0 || fl.portNumber > uintOfLen env.uintBits portsList.length then
      let w1 := printf w0 (ascii "You must select a valid serial port. Options:\n")
      let w2 := printOptions portsList 0 w1
      { world := printf w2 (ascii "Run with \"-help\" for more information.\n"),
        status := Status.exited 1, vars := none }
    else
      match portsList.get? (uintSub env.uintBits fl.portNumber 1) with
      | none => { world := w0, status := Status.panicked, vars := none }
      | some portName =>
        let w1 := w0.emit (Op.openPort portName fl.baud)
        match env.openErr portName fl.baud with
        | some e =>
          { world := printf w1 (ascii "Failed opening serial port " ++ portName ++ ascii ": "
              ++ e ++ ascii "\n"),
            status := Status.exited 1, vars := none }
        | none =>
          let w2 := { w1 with port := Res.opened }
          let w3 := w2.emit (Op.setReadTimeout 500)
          if fl.logFile != [] then
            match newLogWriter env fl.logFile w3 with
            | (w4, Except.error e) =>
              let w5 := printf w4 (ascii "Error establishing log file: " ++ e ++ ascii "\n")
              { world := deferPortClose w5, status := Status.exited 1, vars := none }
            | (w4, Except.ok logOutput) =>
              let w5 := w4.emit Op.notify
              withDefers (streamLoop env portName (Dst.log logOutput) env.events initialVars w5)
                (fun w => deferPortClose (LogWriter.Close env logOutput w).2.1)
          else
            let w5 := w3.emit Op.notify
            withDefers (streamLoop env portName Dst.stdout env.events initialVars w5) deferPortClose

/-! ## The run up to the streaming loop -/

/-- The enumeration succeeds with the list `L`, and the index given with
`-port` is a valid 1-based index into `L` that selects the port `p`. The
index is a `uint` and the length of `L` an `int`, so both are below
`2 ^ uintBits`. -/
structure Selects (env : Env) (fl : Flags) (L : List GoString) (p : GoString) : Prop where
  bits : 0 < env.uintBits
  ports : env.portsList = Except.ok L
  fits : L.length < 2 ^ env.uintBits
  inUint : fl.portNumber < 2 ^ env.uintBits
  lower : 1 ≤ fl.portNumber
  upper : fl.portNumber ≤ L.length
  name : L.get? (fl.portNumber - 1) = some p

/-- The value of `outputDst` for a given `-log_file` (source lines 93-104). -/
def dstOf (logFile : GoString) : Dst :=
  if logFile = [] then Dst.stdout else Dst.log { file := some { name := logFile } }

/-- The deferred calls pending in the loop, run in reverse order of their
`defer` statements (source lines 88 and 100). -/
def deferredOf (env : Env) (logFile : GoString) : World → World :=
  if logFile = [] then deferPortClose
  else fun w => deferPortClose (LogWriter.Close env { file := some { name := logFile } } w).2.1

/-- The world when the streaming part is entered (after source line 117),
on port `p`, with the log file created when one is asked for. -/
def worldAtLoop (p : GoString) (baud : Int) (logFile : GoString) : World :=
  { console := []
    port := Res.opened
    logFile := if logFile = [] then Res.unused else Res.opened
    logData := []
    fileWrites := 0
    trace := [Op.getPortsList, Op.openPort p baud, Op.setReadTimeout 500]
      ++ (if logFile = [] then [] else [Op.createFile logFile])
      ++ [Op.notify] }

/-- The numbered lines of the listing of source lines 68-70, for the ports
from number `k` on. -/
def optionLines : Nat → List GoString → List GoString
  | _, [] => []
  | k, name :: rest =>
    (ascii " " ++ fmtD k ++ ascii ": " ++ name ++ ascii "\n") :: optionLines (k + 1) rest

/-! ## A concrete machine for examples -/

/-- Two enumerated ports. -/
def demoPorts : List GoString := [ascii "/dev/ttyUSB0", ascii "/dev/ttyUSB1"]

/-- A 64-bit machine with the two ports of `demoPorts`, on which every
operation succeeds, and the given script of events. -/
def demoEnv (events : List LoopEvent) : Env :=
  { uintBits := 64
    portsList := Except.ok demoPorts
    openErr := fun _ _ => none
    createErr := fun _ => none
    writeErr := fun _ => none
    closeErr := none
    events := events }

/-- The machine of `demoEnv` on which no file can be created. -/
def readOnlyEnv (events : List LoopEvent) : Env :=
  { uintBits := 64
    portsList := Except.ok demoPorts
    openErr := fun _ _ => none
    createErr := fun _ => some (ascii "permission denied")
    writeErr := fun _ => none
    closeErr := none
    events := events }

/-- The machine of `demoEnv` on which every write to a file stops after two
bytes. -/
def fullDiskEnv (events : List LoopEvent) : Env :=
  { uintBits := 64
    portsList := Except.ok demoPorts
    openErr := fun _ _ => none
    createErr := fun _ => none
    writeErr := fun _ => some (2, ascii "no space left on device")
    closeErr := none
    events := events }

/-- The command line `-port n -log_file f` (with the default baud rate). -/
def demoFlags (portNumber : Nat) (logFile : GoString) : Flags :=
  { portNumber := portNumber, baud := 9600, logFile := logFile }

/-! ## Observations on the record of operations -/

/-- The results that `port.Read` returned, in order. -/
def readsOf (tr : List Op) : List ReadResult :=
  tr.filterMap (fun op => match op with | Op.read r => some r | _ => none)

/-- The byte slices handed to `outputDst`, one per `fmt.Fprintf`, in order. -/
def forwardsOf (tr : List Op) : List (List Byte) :=
  tr.filterMap (fun op => match op with | Op.forward d => some d | _ => none)

/-- The names passed to `serial.Open`, in order. -/
def opensOf (tr : List Op) : List GoString :=
  tr.filterMap (fun op => match op with | Op.openPort n _ => some n | _ => none)

/-- The names passed to `os.Create`, in order. -/
def createsOf (tr : List Op) : List GoString :=
  tr.filterMap (fun op => match op with | Op.createFile n => some n | _ => none)

/-- The data passed to the `Write` of the log file, in order. -/
def writesOf (tr : List Op) : List (List Byte) :=
  tr.filterMap (fun op => match op with | Op.fileWrite d => some d | _ => none)

/-- The number of calls of `port.Read`. -/
def callsOf (tr : List Op) : Nat :=
  (tr.filterMap (fun op => match op with | Op.readCall => some () | _ => none)).length

/-- The bytes of the reads that succeeded with at least one byte, in
order. -/
def delivered (rs : List ReadResult) : List (List Byte) :=
  (rs.filter (fun r => r.err.isNone && decide (1 ≤ r.bytes.length))).map ReadResult.bytes

/-- The read results of a script of events, in order. -/
def scriptReads (evs : List LoopEvent) : List ReadResult :=
  evs.filterMap (fun ev => match ev with | LoopEvent.readReturns r => some r | _ => none)

/-- A read that returns `bytes` and no error. -/
def okRead (bytes : List Byte) : LoopEvent := LoopEvent.readReturns { bytes := bytes, err := none }

/-- The script of an undisturbed loop that receives the given successful
reads: for each, the test of the flag, the call of `port.Read`, its
return. -/
def readCycles : List (List Byte) → List LoopEvent
  | [] => []
  | b :: bs => LoopEvent.proceed :: LoopEvent.proceed :: okRead b :: readCycles bs

/-- An event of the signal handling: an interrupt or a run of the
goroutine. -/
def isSignal : LoopEvent → Bool
  | LoopEvent.interrupt _ => true
  | LoopEvent.wake => true
  | _ => false

/-! ## Scripts for examples -/

/-- The port returns "hello", nothing, then two lines, to an undisturbed
loop. -/
def helloScript : List LoopEvent :=
  LoopEvent.proceed :: readCycles [ascii "hello", [], ascii "x\ny"]

/-- A read that fails with "device disconnected". -/
def disconnect : LoopEvent :=
  LoopEvent.readReturns { bytes := [], err := some (ascii "device disconnected") }

/-- The port returns "hello", then a read fails, and the main goroutine
returns. -/
def failScript : List LoopEvent :=
  LoopEvent.proceed :: (readCycles [ascii "hello"]
    ++ [LoopEvent.proceed, LoopEvent.proceed, disconnect, LoopEvent.proceed])

/-- The port returns "hello", then a read fails, and an interrupt is
delivered before the main goroutine has returned. -/
def lateInterruptScript : List LoopEvent :=
  LoopEvent.proceed :: (readCycles [ascii "hello"]
    ++ [LoopEvent.proceed, LoopEvent.proceed, disconnect,
        LoopEvent.interrupt (ascii "interrupt"), LoopEvent.proceed])

/-- The flag is set between a test that passed and the call of `port.Read`;
the read is started all the same, and fails. -/
def lateFlagScript : List LoopEvent :=
  [LoopEvent.proceed, LoopEvent.proceed, LoopEvent.interrupt (ascii "interrupt"),
   LoopEvent.wake, LoopEvent.proceed, disconnect, LoopEvent.proceed]

/-! ## The control of the streaming loop as a transition system

The streaming part reduced to its control: the flag, the number of reads
started, and the phase of the main goroutine. -/

/-- The control state: the cancellation flag and the number of reads
started, with the phase. -/
structure Ctl where
  shouldExit : Bool
  readsStarted : Nat
  phase : Phase
deriving DecidableEq, Repr

/-- The moves: the goroutine receives a signal and sets the flag, or, after
the channel is closed, a signal stops the process; the main goroutine
advances; the read in flight returns bytes (forwarded, or none); the read in
flight fails. -/
inductive Move where
  | signal
  | advance
  | readOk
  | readFail
deriving DecidableEq, Repr

/-- One transition; `none` when the move is not enabled. -/
def Ctl.step (s : Ctl) : Move → Option Ctl
  | Move.signal =>
    match s.phase with
    | Phase.failed => some { s with phase := Phase.crashed }
    | Phase.exited _ => none
    | Phase.panicked => none
    | Phase.crashed => none
    | _ => if s.shouldExit then none else some { s with shouldExit := true }
  | Move.advance =>
    match s.phase with
    | Phase.start => some { s with phase := Phase.test }
    | Phase.test =>
      if s.shouldExit then some { s with phase := Phase.exited 0 }
      else some { s with phase := Phase.call }
    | Phase.call => some { s with phase := Phase.reading, readsStarted := s.readsStarted + 1 }
    | Phase.failed => some { s with phase := Phase.exited 1 }
    | _ => none
  | Move.readOk =>
    match s.phase with
    | Phase.reading => some { s with phase := Phase.test }
    | _ => none
  | Move.readFail =>
    match s.phase with
    | Phase.reading => some { s with shouldExit := true, phase := Phase.failed }
    | _ => none

/-- A sequence of transitions. -/
def Ctl.exec (s : Ctl) : List Move → Option Ctl
  | [] => some s
  | m :: ms =>
    match s.step m with
    | none => none
    | some s1 => Ctl.exec s1 ms

/-- The control state when the streaming part is entered. -/
def Ctl.init : Ctl := { shouldExit := false, readsStarted := 0, phase := Phase.start }

/-- The control of a state of the streaming part. -/
def LoopState.ctl (s : LoopState) : Ctl :=
  { shouldExit := s.vars.shouldExit, readsStarted := callsOf s.world.trace, phase := s.phase }

/-- The main goroutine is in the loop or about to enter it. -/
def Phase.inLoop : Phase → Bool
  | Phase.start => true
  | Phase.test => true
  | Phase.call => true
  | Phase.reading => true
  | _ => false

/-! ## Basic facts -/

theorem fillBuffer_length (buf bytes : List Byte) :
    (fillBuffer buf bytes).length = buf.length := by
  unfold fillBuffer
  simp only [List.length_take, List.length_append, List.length_drop]
  omega

theorem slicePrefix_fillBuffer (buf bytes : List Byte) (h : bytes.length ≤ buf.length) :
    slicePrefix (fillBuffer buf bytes) bytes.length = some bytes := by
  unfold slicePrefix
  rw [fillBuffer_length, if_pos h]
  unfold fillBuffer
  rw [List.take_take, Nat.min_eq_left h, List.take_left]

/-- Claim C8. `logWriter.Close` is idempotent: whatever the writer's file
(open, nil, or already closed) and whatever the first `Close` returned, a
second `Close` returns no error and leaves the writer and the world (its
record of file operations included) as they were; on a writer that never had
a file the first `Close` already returns no error and touches nothing. -/
theorem logWriter_close_idempotent (env : Env) (lw : LogWriter) (w : World) :
    LogWriter.Close env (LogWriter.Close env lw w).1 (LogWriter.Close env lw w).2.1
        = ((LogWriter.Close env lw w).1, (LogWriter.Close env lw w).2.1, none)
      ∧ (LogWriter.Close env lw w).1.file = none
      ∧ LogWriter.Close env { file := none } w = ({ file := none }, w, none) := by
  cases lw with
  | mk file =>
    cases file with
    | none => exact ⟨rfl, rfl, rfl⟩
    | some f => exact ⟨rfl, rfl, rfl⟩

theorem printf_obs (w : World) (msg : GoString) :
    readsOf (printf w msg).trace = readsOf w.trace
      ∧ forwardsOf (printf w msg).trace = forwardsOf w.trace
      ∧ opensOf (printf w msg).trace = opensOf w.trace
      ∧ createsOf (printf w msg).trace = createsOf w.trace
      ∧ (printf w msg).logData = w.logData ∧ (printf w msg).port = w.port
      ∧ (printf w msg).logFile = w.logFile ∧ (printf w msg).console = w.console ++ msg
      ∧ writesOf (printf w msg).trace = writesOf w.trace
      ∧ callsOf (printf w msg).trace = callsOf w.trace := by
  simp [printf, readsOf, forwardsOf, opensOf, createsOf, writesOf, callsOf,
    List.filterMap_append]

theorem fprintf_frame (env : Env) (dst : Dst) (data : List Byte) (w : World) :
    (fprintf env dst data w).port = w.port ∧ (fprintf env dst data w).logFile = w.logFile
      ∧ opensOf (fprintf env dst data w).trace = opensOf w.trace
      ∧ createsOf (fprintf env dst data w).trace = createsOf w.trace
      ∧ readsOf (fprintf env dst data w).trace = readsOf w.trace
      ∧ forwardsOf (fprintf env dst data w).trace = forwardsOf w.trace ++ [data]
      ∧ (fprintf env dst data w).console = w.console ++ data
      ∧ callsOf (fprintf env dst data w).trace = callsOf w.trace := by
  cases dst with
  | stdout =>
    simp [fprintf, World.emit, opensOf, createsOf, readsOf, forwardsOf, callsOf,
      List.filterMap_append]
  | log lw =>
    cases lw with
    | mk file =>
      cases file with
      | none =>
        simp [fprintf, LogWriter.Write, World.emit, opensOf, createsOf, readsOf, forwardsOf,
          callsOf, List.filterMap_append]
      | some f =>
        simp only [fprintf, LogWriter.Write, osFileWrite, World.emit]
        cases hl : w.logFile <;>
          simp [opensOf, createsOf, readsOf, forwardsOf, callsOf, List.filterMap_append, hl]
        cases hw : env.writeErr w.fileWrites <;> simp [hl]

/-- What `Fprintf` passes to the file: the data, once, when `outputDst` is
the logWriter; nothing when it is standard output. -/
theorem fprintf_writes (env : Env) (logFile : GoString) (data : List Byte) (w : World) :
    writesOf (fprintf env (dstOf logFile) data w).trace
      = writesOf w.trace ++ (if logFile = [] then [] else [data]) := by
  by_cases h : logFile = []
  · simp [dstOf, h, fprintf, World.emit, writesOf, List.filterMap_append]
  · simp only [dstOf, h, if_false, fprintf, LogWriter.Write, osFileWrite, World.emit]
    cases hl : w.logFile <;> simp [writesOf, List.filterMap_append, hl]
    cases hw : env.writeErr w.fileWrites <;> simp [hl]

theorem fprintf_logData (env : Env) (f : OsFile) (data : List Byte) (w : World)
    (ho : w.logFile = Res.opened) (hw : ∀ k, env.writeErr k = none) :
    (fprintf env (Dst.log { file := some f }) data w).logData = w.logData ++ data := by
  simp [fprintf, LogWriter.Write, osFileWrite, World.emit, ho, hw]

/-! ## The steps of the streaming part -/

theorem loopRun_cons (env : Env) (p : GoString) (dst : Dst) (s : LoopState)
    (ev : LoopEvent) (evs : List LoopEvent) :
    loopRun env p dst s (ev :: evs) = loopRun env p dst (loopStep env p dst s ev) evs := rfl

theorem loopRun_append (env : Env) (p : GoString) (dst : Dst) (s : LoopState)
    (evs1 evs2 : List LoopEvent) :
    loopRun env p dst s (evs1 ++ evs2) = loopRun env p dst (loopRun env p dst s evs1) evs2 := by
  simp [loopRun, List.foldl_append]

theorem loopStep_final (env : Env) (p : GoString) (dst : Dst) (s : LoopState) (ev : LoopEvent)
    (h : s.phase.isFinal = true) : loopStep env p dst s ev = s := by
  simp [loopStep, h]

/-- Once the process has ended nothing happens any more. -/
theorem loopRun_final (env : Env) (p : GoString) (dst : Dst) (evs : List LoopEvent) :
    ∀ (s : LoopState), s.phase.isFinal = true → loopRun env p dst s evs = s := by
  induction evs with
  | nil => intro s _; rfl
  | cons ev evs ih =>
    intro s h
    rw [loopRun_cons, loopStep_final env p dst s ev h]
    exact ih s h

/-- One event opens and creates nothing and leaves the state of the port
and of the log file as it found them. -/
theorem loopStep_frame (env : Env) (p : GoString) (dst : Dst) (s : LoopState) (ev : LoopEvent) :
    (loopStep env p dst s ev).world.port = s.world.port
      ∧ (loopStep env p dst s ev).world.logFile = s.world.logFile
      ∧ opensOf (loopStep env p dst s ev).world.trace = opensOf s.world.trace
      ∧ createsOf (loopStep env p dst s ev).world.trace = createsOf s.world.trace
      ∧ (loopStep env p dst s ev).vars.data.length = s.vars.data.length := by
  unfold loopStep
  split
  · simp
  · cases ev with
    | interrupt sig =>
      simp only [deliver]
      split
      · simp
      · split <;> simp
    | wake =>
      simp only [goroutine]
      split
      · split
        · simp [printf, opensOf, createsOf, List.filterMap_append]
        · split <;> simp
      · simp
    | proceed =>
      simp only [advance]
      split
      · simp [printf, opensOf, createsOf, List.filterMap_append]
      · split <;> simp
      · simp [World.emit, opensOf, createsOf, List.filterMap_append]
      · simp
      · simp
    | readReturns r =>
      simp only [readReturn]
      split
      · split
        · simp [printf, World.emit, opensOf, createsOf, List.filterMap_append,
            fillBuffer_length]
        · split
          · simp [World.emit, opensOf, createsOf, List.filterMap_append, fillBuffer_length]
          · split
            · simp [World.emit, opensOf, createsOf, List.filterMap_append, fillBuffer_length]
            · rename_i chunk _
              obtain ⟨f1, f2, f3, f4, -⟩ :=
                fprintf_frame env dst chunk (s.world.emit (Op.read r))
              simp only [fillBuffer_length]
              refine ⟨f1, f2, f3.trans ?_, f4.trans ?_, trivial⟩ <;>
                simp [World.emit, opensOf, createsOf, List.filterMap_append]
      · simp

theorem loopRun_frame (env : Env) (p : GoString) (dst : Dst) (evs : List LoopEvent) :
    ∀ (s : LoopState),
      (loopRun env p dst s evs).world.port = s.world.port
        ∧ (loopRun env p dst s evs).world.logFile = s.world.logFile
        ∧ opensOf (loopRun env p dst s evs).world.trace = opensOf s.world.trace
        ∧ createsOf (loopRun env p dst s evs).world.trace = createsOf s.world.trace
        ∧ (loopRun env p dst s evs).vars.data.length = s.vars.data.length := by
  induction evs with
  | nil => intro s; exact ⟨rfl, rfl, rfl, rfl, rfl⟩
  | cons ev evs ih =>
    intro s
    rw [loopRun_cons]
    obtain ⟨h1, h2, h3, h4, h5⟩ := ih (loopStep env p dst s ev)
    obtain ⟨g1, g2, g3, g4, g5⟩ := loopStep_frame env p dst s ev
    exact ⟨h1.trans g1, h2.trans g2, h3.trans g3, h4.trans g4, h5.trans g5⟩

theorem readReturn_fail (env : Env) (p : GoString) (dst : Dst) (s : LoopState)
    (b : List Byte) (e : GoString) (hp : s.phase = Phase.reading) :
    readReturn env p dst { bytes := b, err := some e } s
      = { vars := { s.vars with data := fillBuffer s.vars.data b, shouldExit := true,
                                chanClosed := true }
          world := printf ((s.world.emit (Op.read { bytes := b, err := some e })).emit
            Op.closeChan) (failure p e)
          phase := Phase.failed } := by
  simp [readReturn, hp]

theorem readReturn_empty (env : Env) (p : GoString) (dst : Dst) (s : LoopState)
    (hp : s.phase = Phase.reading) :
    readReturn env p dst { bytes := [], err := none } s
      = { vars := { s.vars with data := fillBuffer s.vars.data [] }
          world := s.world.emit (Op.read { bytes := [], err := none })
          phase := Phase.test } := by
  simp [readReturn, hp]

theorem readReturn_data (env : Env) (p : GoString) (dst : Dst) (s : LoopState)
    (b : List Byte) (hp : s.phase = Phase.reading) (h1 : 1 ≤ b.length)
    (hlen : b.length ≤ s.vars.data.length) :
    readReturn env p dst { bytes := b, err := none } s
      = { vars := { s.vars with data := fillBuffer s.vars.data b }
          world := fprintf env dst b (s.world.emit (Op.read { bytes := b, err := none }))
          phase := Phase.test } := by
  have hb : (b.length == 0) = false := by
    simp only [beq_eq_false_iff_ne]; omega
  simp [readReturn, hp, hb, slicePrefix_fillBuffer s.vars.data b hlen]

theorem readReturn_idle (env : Env) (p : GoString) (dst : Dst) (s : LoopState)
    (r : ReadResult) (hp : s.phase ≠ Phase.reading) : readReturn env p dst r s = s := by
  unfold readReturn
  split
  · rename_i h; exact absurd h hp
  · rfl

/-- The world after an event that is not the return of a read: the record
of reads, of slices handed over and of file writes, and the contents of the
file, are as before. -/
theorem loopStep_quiet (env : Env) (p : GoString) (dst : Dst) (s : LoopState) (ev : LoopEvent)
    (hev : ∀ r, ev ≠ LoopEvent.readReturns r) :
    readsOf (loopStep env p dst s ev).world.trace = readsOf s.world.trace
      ∧ forwardsOf (loopStep env p dst s ev).world.trace = forwardsOf s.world.trace
      ∧ writesOf (loopStep env p dst s ev).world.trace = writesOf s.world.trace
      ∧ (loopStep env p dst s ev).world.logData = s.world.logData := by
  unfold loopStep
  split
  · simp
  · cases ev with
    | interrupt sig =>
      simp only [deliver]
      split
      · simp
      · split <;> simp
    | wake =>
      simp only [goroutine]
      split
      · split
        · simp [printf, readsOf, forwardsOf, writesOf, List.filterMap_append]
        · split <;> simp
      · simp
    | proceed =>
      simp only [advance]
      split
      · simp [printf, readsOf, forwardsOf, writesOf, List.filterMap_append]
      · split <;> simp
      · simp [World.emit, readsOf, forwardsOf, writesOf, List.filterMap_append]
      · simp
      · simp
    | readReturns r => exact absurd rfl (hev r)

/-- What the return of a read adds to the world, when a successful read fits
the buffer: the read itself to the record of reads; its bytes, when it
succeeded with at least one byte, to the slices handed over, to the file
writes (with a log file) and, when the writes succeed, to the file. -/
theorem loopStep_read (env : Env) (p : GoString) (logFile : GoString) (s : LoopState)
    (r : ReadResult) (hp : s.phase = Phase.reading)
    (hcap : r.err = none → r.bytes.length ≤ s.vars.data.length) :
    readsOf (loopStep env p (dstOf logFile) s (LoopEvent.readReturns r)).world.trace
        = readsOf s.world.trace ++ [r]
      ∧ forwardsOf (loopStep env p (dstOf logFile) s (LoopEvent.readReturns r)).world.trace
        = forwardsOf s.world.trace
          ++ (if r.err.isNone && decide (1 ≤ r.bytes.length) then [r.bytes] else [])
      ∧ writesOf (loopStep env p (dstOf logFile) s (LoopEvent.readReturns r)).world.trace
        = writesOf s.world.trace
          ++ (if logFile = [] then []
              else if r.err.isNone && decide (1 ≤ r.bytes.length) then [r.bytes] else [])
      ∧ (logFile ≠ [] → s.world.logFile = Res.opened → (∀ k, env.writeErr k = none) →
          (loopStep env p (dstOf logFile) s (LoopEvent.readReturns r)).world.logData
            = s.world.logData
              ++ (if r.err.isNone && decide (1 ≤ r.bytes.length) then r.bytes else [])) := by
  have hnf : s.phase.isFinal = false := by rw [hp]; rfl
  obtain ⟨b, err⟩ := r
  simp only [loopStep, hnf, Bool.false_eq_true, if_false]
  cases err with
  | some e =>
    rw [readReturn_fail env p _ s b e hp]
    simp [printf, World.emit, readsOf, forwardsOf, writesOf, List.filterMap_append]
  | none =>
    have hlen : b.length ≤ s.vars.data.length := hcap rfl
    by_cases hz : b.length = 0
    · have hnil : b = [] := List.length_eq_zero.mp hz
      subst hnil
      rw [readReturn_empty env p _ s hp]
      simp [World.emit, readsOf, forwardsOf, writesOf, List.filterMap_append]
    · have h1 : 1 ≤ b.length := by omega
      rw [readReturn_data env p _ s b hp h1 hlen]
      obtain ⟨-, -, -, -, f5, f6, -⟩ := fprintf_frame env (dstOf logFile) b
        (s.world.emit (Op.read { bytes := b, err := none }))
      have f7 := fprintf_writes env logFile b
        (s.world.emit (Op.read { bytes := b, err := none }))
      refine ⟨?_, ?_, ?_, ?_⟩
      · show readsOf (fprintf _ _ _ _).trace = _
        rw [f5]; simp [World.emit, readsOf, List.filterMap_append]
      · show forwardsOf (fprintf _ _ _ _).trace = _
        rw [f6]; simp [World.emit, forwardsOf, List.filterMap_append, h1]
      · show writesOf (fprintf _ _ _ _).trace = _
        rw [f7]; simp [World.emit, writesOf, List.filterMap_append, h1]
      · intro hl ho hw
        show (fprintf _ _ _ _).logData = _
        simp only [dstOf, hl, if_false]
        rw [fprintf_logData env _ b _ (by simpa [World.emit] using ho) hw]
        simp [World.emit, h1]

theorem loopStep_read_idle (env : Env) (p : GoString) (dst : Dst) (s : LoopState)
    (r : ReadResult) (hp : s.phase ≠ Phase.reading) :
    loopStep env p dst s (LoopEvent.readReturns r) = s := by
  unfold loopStep
  split
  · rfl
  · exact readReturn_idle env p dst s r hp

theorem delivered_cons (r : ReadResult) (rs : List ReadResult) :
    delivered (r :: rs)
      = (if r.err.isNone && decide (1 ≤ r.bytes.length) then [r.bytes] else []) ++ delivered rs := by
  unfold delivered
  by_cases h : (r.err.isNone && decide (1 ≤ r.bytes.length)) = true
  · simp [List.filter_cons, h]
  · simp [List.filter_cons, h]

theorem scriptReads_cons_read (r : ReadResult) (evs : List LoopEvent) :
    scriptReads (LoopEvent.readReturns r :: evs) = r :: scriptReads evs := by
  simp [scriptReads]

theorem scriptReads_cons_other (ev : LoopEvent) (evs : List LoopEvent)
    (hev : ∀ r, ev ≠ LoopEvent.readReturns r) :
    scriptReads (ev :: evs) = scriptReads evs := by
  cases ev with
  | readReturns r => exact absurd rfl (hev r)
  | interrupt sig => simp [scriptReads]
  | wake => simp [scriptReads]
  | proceed => simp [scriptReads]

/-- The streaming part on any script whose successful reads fit the buffer:
the reads received come from the script, in order; the slices handed to
`outputDst` are the bytes of the received reads that succeeded with at least
one byte; the file is written with these slices and nothing else; and when
the writes succeed the file grows by their concatenation. -/
theorem loopRun_invariant (env : Env) (p : GoString) (logFile : GoString) :
    ∀ (evs : List LoopEvent) (s : LoopState),
      (∀ r ∈ scriptReads evs, r.err = none → r.bytes.length ≤ s.vars.data.length) →
      ∃ taken : List ReadResult,
        taken.Sublist (scriptReads evs)
          ∧ readsOf (loopRun env p (dstOf logFile) s evs).world.trace
              = readsOf s.world.trace ++ taken
          ∧ forwardsOf (loopRun env p (dstOf logFile) s evs).world.trace
              = forwardsOf s.world.trace ++ delivered taken
          ∧ writesOf (loopRun env p (dstOf logFile) s evs).world.trace
              = writesOf s.world.trace ++ (if logFile = [] then [] else delivered taken)
          ∧ (logFile ≠ [] → s.world.logFile = Res.opened → (∀ k, env.writeErr k = none) →
              (loopRun env p (dstOf logFile) s evs).world.logData
                = s.world.logData ++ (delivered taken).flatten) := by
  intro evs
  induction evs with
  | nil =>
    intro s _
    refine ⟨[], List.Sublist.refl _, by simp [loopRun, delivered], by simp [loopRun, delivered],
      by simp [loopRun, delivered], fun _ _ _ => by simp [loopRun, delivered]⟩
  | cons ev evs ih =>
    intro s hall
    obtain ⟨-, g2, -, -, g5⟩ := loopStep_frame env p (dstOf logFile) s ev
    rw [loopRun_cons]
    by_cases hr : ∃ r, ev = LoopEvent.readReturns r
    · obtain ⟨r, hr⟩ := hr
      subst hr
      rw [scriptReads_cons_read] at hall ⊢
      obtain ⟨taken, t1, t2, t3, t4, t5⟩ :=
        ih (loopStep env p (dstOf logFile) s (LoopEvent.readReturns r))
          (by intro r2 hr2; rw [g5]; exact hall r2 (List.mem_cons_of_mem _ hr2))
      by_cases hp : s.phase = Phase.reading
      · obtain ⟨s1, s2, s3, s4⟩ := loopStep_read env p logFile s r hp
          (hall r (List.mem_cons_self _ _))
        refine ⟨r :: taken, t1.cons₂ r, ?_, ?_, ?_, ?_⟩
        · rw [t2, s1]; simp
        · rw [t3, s2, delivered_cons]; simp
        · rw [t4, s3, delivered_cons]
          by_cases hl : logFile = [] <;> simp [hl]
        · intro hl ho hw
          rw [t5 hl (g2.trans ho) hw, s4 hl ho hw, delivered_cons]
          by_cases hc : (r.err.isNone && decide (1 ≤ r.bytes.length)) = true <;> simp [hc]
      · rw [loopStep_read_idle env p _ s r hp] at t2 t3 t4 t5 ⊢
        exact ⟨taken, t1.cons r, t2, t3, t4, fun hl ho hw => t5 hl ho hw⟩
    · have hev : ∀ r, ev ≠ LoopEvent.readReturns r := fun r h => hr ⟨r, h⟩
      rw [scriptReads_cons_other ev evs hev] at hall ⊢
      obtain ⟨q1, q2, q3, q4⟩ := loopStep_quiet env p (dstOf logFile) s ev hev
      obtain ⟨taken, t1, t2, t3, t4, t5⟩ :=
        ih (loopStep env p (dstOf logFile) s ev)
          (by intro r2 hr2; rw [g5]; exact hall r2 hr2)
      refine ⟨taken, t1, by rw [t2, q1], by rw [t3, q2], by rw [t4, q3], ?_⟩
      intro hl ho hw
      rw [t5 hl (g2.trans ho) hw, q4]

theorem step_test_pass (env : Env) (p : GoString) (dst : Dst) (s : LoopState)
    (hp : s.phase = Phase.test) (hx : s.vars.shouldExit = false) :
    loopStep env p dst s LoopEvent.proceed = { s with phase := Phase.call } := by
  simp [loopStep, advance, hp, hx, Phase.isFinal]

theorem step_test_exit (env : Env) (p : GoString) (dst : Dst) (s : LoopState)
    (hp : s.phase = Phase.test) (hx : s.vars.shouldExit = true) :
    loopStep env p dst s LoopEvent.proceed = { s with phase := Phase.exited 0 } := by
  simp [loopStep, advance, hp, hx, Phase.isFinal]

theorem step_call (env : Env) (p : GoString) (dst : Dst) (s : LoopState)
    (hp : s.phase = Phase.call) :
    loopStep env p dst s LoopEvent.proceed
      = { s with world := s.world.emit Op.readCall, phase := Phase.reading } := by
  simp [loopStep, advance, hp, Phase.isFinal]

theorem step_start (env : Env) (p : GoString) (dst : Dst) (s : LoopState)
    (hp : s.phase = Phase.start) :
    loopStep env p dst s LoopEvent.proceed
      = { s with world := printf s.world (banner p), phase := Phase.test } := by
  simp [loopStep, advance, hp, Phase.isFinal]

theorem step_failed (env : Env) (p : GoString) (dst : Dst) (s : LoopState)
    (hp : s.phase = Phase.failed) :
    loopStep env p dst s LoopEvent.proceed = { s with phase := Phase.exited 1 } := by
  simp [loopStep, advance, hp, Phase.isFinal]

theorem step_read (env : Env) (p : GoString) (dst : Dst) (s : LoopState) (r : ReadResult)
    (hp : s.phase = Phase.reading) :
    loopStep env p dst s (LoopEvent.readReturns r) = readReturn env p dst r s := by
  simp [loopStep, hp, Phase.isFinal]

/-- One successful read within the capacity of the buffer, received with the
flag down: the loop is back at its test. -/
theorem loopRun_cycle (env : Env) (p : GoString) (dst : Dst) (s : LoopState) (b : List Byte)
    (hp : s.phase = Phase.test) (hx : s.vars.shouldExit = false)
    (hlen : b.length ≤ s.vars.data.length) :
    loopRun env p dst s [LoopEvent.proceed, LoopEvent.proceed, okRead b]
      = { vars := { s.vars with data := fillBuffer s.vars.data b }
          world :=
            if b.length = 0 then
              (s.world.emit Op.readCall).emit (Op.read { bytes := b, err := none })
            else fprintf env dst b
              ((s.world.emit Op.readCall).emit (Op.read { bytes := b, err := none }))
          phase := Phase.test } := by
  simp only [loopRun, List.foldl_cons, List.foldl_nil, okRead]
  rw [step_test_pass env p dst s hp hx, step_call env p dst _ rfl, step_read env p dst _ _ rfl]
  show readReturn env p dst { bytes := b, err := none }
      { vars := s.vars, world := s.world.emit Op.readCall, phase := Phase.reading } = _
  by_cases hz : b.length = 0
  · have hnil : b = [] := List.length_eq_zero.mp hz
    subst hnil
    rw [readReturn_empty env p dst _ rfl]
    simp
  · have h1 : 1 ≤ b.length := by omega
    rw [readReturn_data env p dst
      { vars := s.vars, world := s.world.emit Op.readCall, phase := Phase.reading } b rfl h1 hlen]
    simp [hz]

/-- An undisturbed loop that receives the successful reads `bs`, each within
the capacity of the buffer: every read is received, each non-empty one is
written to the console, and the loop is back at its test with the flag
down. -/
theorem loopRun_readCycles (env : Env) (p : GoString) (dst : Dst) :
    ∀ (bs : List (List Byte)) (s : LoopState), s.phase = Phase.test →
      s.vars.shouldExit = false → (∀ b ∈ bs, b.length ≤ s.vars.data.length) →
      (loopRun env p dst s (readCycles bs)).phase = Phase.test
        ∧ (loopRun env p dst s (readCycles bs)).vars.shouldExit = false
        ∧ (loopRun env p dst s (readCycles bs)).vars.chanClosed = s.vars.chanClosed
        ∧ (loopRun env p dst s (readCycles bs)).vars.listening = s.vars.listening
        ∧ (loopRun env p dst s (readCycles bs)).vars.pending = s.vars.pending
        ∧ (loopRun env p dst s (readCycles bs)).world.console = s.world.console ++ bs.flatten
        ∧ readsOf (loopRun env p dst s (readCycles bs)).world.trace
            = readsOf s.world.trace ++ bs.map (fun b => { bytes := b, err := none })
        ∧ callsOf (loopRun env p dst s (readCycles bs)).world.trace
            = callsOf s.world.trace + bs.length := by
  intro bs
  induction bs with
  | nil => intro s hp hx _; simp [readCycles, loopRun, hp, hx]
  | cons b bs ih =>
    intro s hp hx hall
    have hlen : b.length ≤ s.vars.data.length := hall b (List.mem_cons_self _ _)
    have hsplit : readCycles (b :: bs)
        = [LoopEvent.proceed, LoopEvent.proceed, okRead b] ++ readCycles bs := rfl
    rw [hsplit, loopRun_append, loopRun_cycle env p dst s b hp hx hlen]
    obtain ⟨i1, i2, i3, i4, i5, i6, i7, i8⟩ :=
      ih { vars := { s.vars with data := fillBuffer s.vars.data b }
           world :=
             if b.length = 0 then
               (s.world.emit Op.readCall).emit (Op.read { bytes := b, err := none })
             else fprintf env dst b
               ((s.world.emit Op.readCall).emit (Op.read { bytes := b, err := none }))
           phase := Phase.test } rfl hx
        (by intro b2 hb2
            show b2.length ≤ (fillBuffer s.vars.data b).length
            rw [fillBuffer_length]
            exact hall b2 (List.mem_cons_of_mem _ hb2))
    refine ⟨i1, i2, i3, i4, i5, ?_, ?_, ?_⟩
    · rw [i6]
      by_cases hz : b.length = 0
      · have hnil : b = [] := List.length_eq_zero.mp hz
        simp [hz, World.emit, hnil]
      · obtain ⟨-, -, -, -, -, -, f7, -⟩ := fprintf_frame env dst b
          ((s.world.emit Op.readCall).emit (Op.read { bytes := b, err := none }))
        simp only [hz, if_false, f7]
        simp [World.emit]
    · rw [i7]
      by_cases hz : b.length = 0
      · simp [hz, World.emit, readsOf, List.filterMap_append]
      · obtain ⟨-, -, -, -, f5, -⟩ := fprintf_frame env dst b
          ((s.world.emit Op.readCall).emit (Op.read { bytes := b, err := none }))
        simp only [hz, if_false, f5]
        simp [World.emit, readsOf, List.filterMap_append]
    · rw [i8]
      by_cases hz : b.length = 0
      · simp [hz, World.emit, callsOf, List.filterMap_append]; omega
      · obtain ⟨-, -, -, -, -, -, -, f8⟩ := fprintf_frame env dst b
          ((s.world.emit Op.readCall).emit (Op.read { bytes := b, err := none }))
        simp only [hz, if_false, f8]
        simp [World.emit, callsOf, List.filterMap_append]; omega

theorem delivered_ok (bs : List (List Byte)) :
    delivered (bs.map (fun b => ({ bytes := b, err := none } : ReadResult)))
      = bs.filter (fun b => decide (1 ≤ b.length)) := by
  induction bs with
  | nil => rfl
  | cons b bs ih =>
    rw [List.map_cons, delivered_cons, ih]
    by_cases h : 1 ≤ b.length <;> simp [List.filter_cons, h]

theorem flatten_filter_nonempty (bs : List (List Byte)) :
    (bs.filter (fun b => decide (1 ≤ b.length))).flatten = bs.flatten := by
  induction bs with
  | nil => rfl
  | cons b bs ih =>
    by_cases h : 1 ≤ b.length
    · simp [List.filter_cons, h, ih]
    · have hnil : b = [] := List.length_eq_zero.mp (by omega)
      simp [List.filter_cons, h, ih, hnil]

theorem step_signal_open (env : Env) (p : GoString) (dst : Dst) (s : LoopState)
    (ev : LoopEvent) (hev : isSignal ev = true) (hnf : s.phase.isFinal = false)
    (hc : s.vars.chanClosed = false) :
    (loopStep env p dst s ev).phase = s.phase
      ∧ (loopStep env p dst s ev).vars.chanClosed = false
      ∧ (loopStep env p dst s ev).vars.data = s.vars.data
      ∧ (s.vars.shouldExit = true → (loopStep env p dst s ev).vars.shouldExit = true)
      ∧ (s.vars.listening = false →
          (loopStep env p dst s ev).world = s.world
            ∧ (loopStep env p dst s ev).vars.shouldExit = s.vars.shouldExit
            ∧ (loopStep env p dst s ev).vars.listening = false) := by
  cases ev with
  | interrupt sig =>
    simp only [loopStep, hnf, Bool.false_eq_true, if_false, deliver, hc]
    cases hpend : s.vars.pending <;> simp [hc]
  | wake =>
    simp only [loopStep, hnf, Bool.false_eq_true, if_false, goroutine]
    cases hl : s.vars.listening
    · simp [hc, hl]
    · cases hpend : s.vars.pending <;> simp [hc]
  | proceed => simp [isSignal] at hev
  | readReturns r => simp [isSignal] at hev

/-- Interrupts and runs of the goroutine, while the channel is open, leave
the main goroutine where it is; they no longer change anything but the
buffer of the channel once the goroutine has received its signal. -/
theorem loopRun_signals (env : Env) (p : GoString) (dst : Dst) :
    ∀ (mid : List LoopEvent) (s : LoopState), (∀ ev ∈ mid, isSignal ev = true) →
      s.phase.isFinal = false → s.vars.chanClosed = false →
      (loopRun env p dst s mid).phase = s.phase
        ∧ (loopRun env p dst s mid).vars.chanClosed = false
        ∧ (loopRun env p dst s mid).vars.data = s.vars.data
        ∧ (s.vars.shouldExit = true → (loopRun env p dst s mid).vars.shouldExit = true)
        ∧ (s.vars.listening = false →
            (loopRun env p dst s mid).world = s.world
              ∧ (loopRun env p dst s mid).vars.shouldExit = s.vars.shouldExit
              ∧ (loopRun env p dst s mid).vars.listening = false) := by
  intro mid
  induction mid with
  | nil => intro s _ _ hc; exact ⟨rfl, hc, rfl, fun h => h, fun h => ⟨rfl, rfl, h⟩⟩
  | cons ev mid ih =>
    intro s hall hnf hc
    obtain ⟨g1, g2, g3, g4, g5⟩ :=
      step_signal_open env p dst s ev (hall ev (List.mem_cons_self _ _)) hnf hc
    obtain ⟨i1, i2, i3, i4, i5⟩ := ih (loopStep env p dst s ev)
      (fun e he => hall e (List.mem_cons_of_mem _ he)) (by rw [g1]; exact hnf) g2
    rw [loopRun_cons]
    refine ⟨i1.trans g1, i2, i3.trans g3, fun h => i4 (g4 h), fun hl => ?_⟩
    obtain ⟨k1, k2, k3⟩ := g5 hl
    obtain ⟨j1, j2, j3⟩ := i5 k3
    exact ⟨j1.trans k1, j2.trans k2, j3⟩

/-- An interrupt while the goroutine waits on the open and empty channel,
then a run of the goroutine: the notice is printed and the flag set. -/
theorem loopRun_interrupt_wake (env : Env) (p : GoString) (dst : Dst) (s : LoopState)
    (sig : GoString) (hnf : s.phase.isFinal = false) (hc : s.vars.chanClosed = false)
    (hl : s.vars.listening = true) (hpend : s.vars.pending = none) :
    loopRun env p dst s [LoopEvent.interrupt sig, LoopEvent.wake]
      = { vars := { s.vars with shouldExit := true, listening := false, pending := none }
          world := printf s.world (notice sig)
          phase := s.phase } := by
  simp [loopRun, loopStep, hnf, deliver, hc, hpend, goroutine, hl]

/-- The whole of the signal handling for a first interrupt, followed by
further interrupts and runs of the goroutine. -/
theorem loopRun_first_interrupt (env : Env) (p : GoString) (dst : Dst) (s : LoopState)
    (sig : GoString) (more : List LoopEvent) (hmore : ∀ ev ∈ more, isSignal ev = true)
    (hnf : s.phase.isFinal = false) (hc : s.vars.chanClosed = false)
    (hl : s.vars.listening = true) (hpend : s.vars.pending = none) :
    (loopRun env p dst s (LoopEvent.interrupt sig :: LoopEvent.wake :: more)).phase = s.phase
      ∧ (loopRun env p dst s (LoopEvent.interrupt sig :: LoopEvent.wake :: more)).vars.shouldExit
          = true
      ∧ (loopRun env p dst s (LoopEvent.interrupt sig :: LoopEvent.wake :: more)).vars.data
          = s.vars.data
      ∧ (loopRun env p dst s (LoopEvent.interrupt sig :: LoopEvent.wake :: more)).world
          = printf s.world (notice sig) := by
  have hsplit : LoopEvent.interrupt sig :: LoopEvent.wake :: more
      = [LoopEvent.interrupt sig, LoopEvent.wake] ++ more := rfl
  rw [hsplit, loopRun_append, loopRun_interrupt_wake env p dst s sig hnf hc hl hpend]
  obtain ⟨i1, -, i3, i4, i5⟩ := loopRun_signals env p dst more
    { vars := { s.vars with shouldExit := true, listening := false, pending := none }
      world := printf s.world (notice sig)
      phase := s.phase } hmore hnf hc
  obtain ⟨j1, -, -⟩ := i5 rfl
  exact ⟨i1, i4 rfl, i3, j1⟩

theorem printOptions_obs (portsList : List GoString) :
    ∀ (n i : Nat) (w : World), portsList.length - i = n →
      readsOf (printOptions portsList i w).trace = readsOf w.trace
        ∧ forwardsOf (printOptions portsList i w).trace = forwardsOf w.trace
        ∧ opensOf (printOptions portsList i w).trace = opensOf w.trace
        ∧ createsOf (printOptions portsList i w).trace = createsOf w.trace
        ∧ (printOptions portsList i w).logData = w.logData
        ∧ (printOptions portsList i w).port = w.port
        ∧ (printOptions portsList i w).logFile = w.logFile := by
  intro n
  induction n with
  | zero =>
    intro i w h
    unfold printOptions
    have : ¬ i < portsList.length := by omega
    simp [this]
  | succ n ih =>
    intro i w h
    unfold printOptions
    have hi : i < portsList.length := by omega
    simp only [hi, dite_true]
    obtain ⟨h1, h2, h3, h4, h5, h6, h7⟩ := ih (i + 1)
      (printf w (ascii " " ++ fmtD (i + 1) ++ ascii ": " ++ portsList.get ⟨i, hi⟩ ++ ascii "\n"))
      (by omega)
    obtain ⟨p1, p2, p3, p4, p5, p6, p7, -⟩ :=
      printf_obs w (ascii " " ++ fmtD (i + 1) ++ ascii ": " ++ portsList.get ⟨i, hi⟩ ++ ascii "\n")
    exact ⟨h1.trans p1, h2.trans p2, h3.trans p3, h4.trans p4, h5.trans p5, h6.trans p6,
      h7.trans p7⟩

theorem uintSub_one (bits i : Nat) (hbits : 0 < bits) (hi : i < 2 ^ bits) (h1 : 1 ≤ i) :
    uintSub bits i 1 = i - 1 := by
  have h2 : 1 < 2 ^ bits := Nat.one_lt_two_pow (Nat.ne_of_gt hbits)
  unfold uintSub
  rw [Nat.mod_eq_of_lt h2]
  have e : i + 2 ^ bits - 1 = (i - 1) + 2 ^ bits := by omega
  rw [e, Nat.add_mod_right, Nat.mod_eq_of_lt (by omega)]

theorem select_guard (bits i n : Nat) (hn : n < 2 ^ bits) :
    (i == 0 || decide (i > uintOfLen bits n)) = false ↔ 1 ≤ i ∧ i ≤ n := by
  unfold uintOfLen
  rw [Nat.mod_eq_of_lt hn]
  simp only [Bool.or_eq_false_iff, beq_eq_false_iff_ne, decide_eq_false_iff_not]
  omega

theorem run_invalid (env : Env) (fl : Flags) (L : List GoString)
    (hL : env.portsList = Except.ok L) (hne : L ≠ []) (hfits : L.length < 2 ^ env.uintBits)
    (hbad : fl.portNumber < 1 ∨ fl.portNumber > L.length) :
    run env fl =
      { world := printf (printOptions L 0 (printf (World.init.emit Op.getPortsList)
            (ascii "You must select a valid serial port. Options:\n")))
          (ascii "Run with \"-help\" for more information.\n"),
        status := Status.exited 1, vars := none } := by
  have hlen : (L.length == 0) = false := by
    simpa using hne
  have hg : (fl.portNumber == 0 || decide (fl.portNumber > uintOfLen env.uintBits L.length))
      = true := by
    cases hb : (fl.portNumber == 0 || decide (fl.portNumber > uintOfLen env.uintBits L.length))
    · have := (select_guard env.uintBits fl.portNumber L.length hfits).mp hb
      omega
    · rfl
  unfold run
  simp only [hL, hlen, hg, if_true, Bool.false_eq_true, if_false]

theorem run_selected (env : Env) (fl : Flags) (L : List GoString) (p : GoString)
    (hs : Selects env fl L p) :
    (∀ e, env.openErr p fl.baud = some e →
      run env fl =
        { world := printf ((World.init.emit Op.getPortsList).emit (Op.openPort p fl.baud))
            (ascii "Failed opening serial port " ++ p ++ ascii ": " ++ e ++ ascii "\n"),
          status := Status.exited 1, vars := none })
    ∧ (∀ e, env.openErr p fl.baud = none → fl.logFile ≠ [] →
        env.createErr fl.logFile = some e →
        run env fl =
          { world := deferPortClose (printf
              ({ console := [], port := Res.opened, logFile := Res.unused, logData := [],
                 fileWrites := 0,
                 trace := [Op.getPortsList, Op.openPort p fl.baud, Op.setReadTimeout 500,
                   Op.createFile fl.logFile] })
              (ascii "Error establishing log file: "
                ++ (ascii "Failed creating log file " ++ fl.logFile ++ ascii ": " ++ e)
                ++ ascii "\n")),
            status := Status.exited 1, vars := none })
    ∧ (env.openErr p fl.baud = none → (fl.logFile ≠ [] → env.createErr fl.logFile = none) →
        run env fl = withDefers
          (streamLoop env p (dstOf fl.logFile) env.events initialVars
            (worldAtLoop p fl.baud fl.logFile))
          (deferredOf env fl.logFile)) := by
  have hne : (L.length == 0) = false := by
    have := hs.upper
    have := hs.lower
    simp only [beq_eq_false_iff_ne]
    omega
  have hg := (select_guard env.uintBits fl.portNumber L.length hs.fits).mpr ⟨hs.lower, hs.upper⟩
  have hsub := uintSub_one env.uintBits fl.portNumber hs.bits hs.inUint hs.lower
  refine ⟨?_, ?_, ?_⟩
  · intro e he
    unfold run
    simp only [hs.ports, hne, hg, hsub, hs.name, he, Bool.false_eq_true, if_false]
  · intro e ho hlog hce
    have hl : (fl.logFile != []) = true := by simpa using hlog
    unfold run
    simp only [hs.ports, hne, hg, hsub, hs.name, ho, hl, newLogWriter, hce,
      Bool.false_eq_true, if_false, if_true]
    rfl
  · intro ho hcr
    unfold run
    simp only [hs.ports, hne, hg, hsub, hs.name, ho, Bool.false_eq_true, if_false]
    by_cases hlog : fl.logFile = []
    · have hl : (fl.logFile != []) = false := by simp [hlog]
      simp only [hl, Bool.false_eq_true, if_false, dstOf, deferredOf, worldAtLoop, hlog, if_true]
      rfl
    · have hl : (fl.logFile != []) = true := by simpa using hlog
      simp only [hl, if_true, newLogWriter, hcr hlog, dstOf, deferredOf, worldAtLoop, hlog,
        if_false]
      rfl

theorem printOptions_console (portsList : List GoString) :
    ∀ (n i : Nat) (w : World), portsList.length - i = n →
      (printOptions portsList i w).console
        = w.console ++ (optionLines (i + 1) (portsList.drop i)).flatten := by
  intro n
  induction n with
  | zero =>
    intro i w h
    unfold printOptions
    have hi : ¬ i < portsList.length := by omega
    have hd : portsList.drop i = [] := List.drop_eq_nil_of_le (by omega)
    simp [hi, hd, optionLines]
  | succ n ih =>
    intro i w h
    unfold printOptions
    have hi : i < portsList.length := by omega
    have hd : portsList.drop i = portsList.get ⟨i, hi⟩ :: portsList.drop (i + 1) := by
      simp
    simp only [hi, dite_true]
    rw [ih (i + 1) _ (by omega), hd]
    simp [optionLines, printf]

theorem optionLines_length : ∀ (L : List GoString) (k : Nat), (optionLines k L).length = L.length
  | [], _ => rfl
  | _ :: rest, k => by simp [optionLines, optionLines_length rest (k + 1)]

theorem optionLines_get? : ∀ (L : List GoString) (k j : Nat),
    (optionLines k L).get? j
      = (L.get? j).map (fun name => ascii " " ++ fmtD (k + j) ++ ascii ": " ++ name ++ ascii "\n")
  | [], _, _ => by simp [optionLines]
  | _ :: _, _, 0 => by simp [optionLines]
  | _ :: rest, k, j + 1 => by
    have h := optionLines_get? rest (k + 1) j
    simp only [optionLines, List.get?_cons_succ, h]
    have e : k + 1 + j = k + (j + 1) := by omega
    rw [e]

/-- Claim C7. When the enumeration succeeds with an empty list, then for
every `-port`, `-baud` and `-log_file` the run prints "No serial devices were
found.", returns status 0, and its record of operations holds the
enumeration and that message only: no port is opened and no file created. -/
theorem run_no_ports (env : Env) (fl : Flags) :
    (run { env with portsList := Except.ok [] } fl).status = Status.exited 0
      ∧ (run { env with portsList := Except.ok [] } fl).world.console
          = ascii "No serial devices were found.\n"
      ∧ (run { env with portsList := Except.ok [] } fl).world.trace
          = [Op.getPortsList, Op.print (ascii "No serial devices were found.\n")]
      ∧ opensOf (run { env with portsList := Except.ok [] } fl).world.trace = []
      ∧ createsOf (run { env with portsList := Except.ok [] } fl).world.trace = []
      ∧ (run { env with portsList := Except.ok [] } fl).world.port = Res.unused
      ∧ (run { env with portsList := Except.ok [] } fl).world.logFile = Res.unused := by
  simp [run, printf, World.emit, World.init, opensOf, createsOf]

/-- Claim C2. For every byte sequence `B`, newline bytes or not, and every
logWriter whose file is open and whose write succeeds, `logWriter.Write(B)`
appends exactly `B` to the console and exactly `B` to the file, and returns
the length of `B` with no error; the same holds for the `Fprintf` of the
loop when `outputDst` is that logWriter. -/
theorem logWriter_write_tees (env : Env) (f : OsFile) (B : List Byte) (w : World)
    (hopen : w.logFile = Res.opened) (hwrite : env.writeErr w.fileWrites = none) :
    (LogWriter.Write env { file := some f } B w).1.console = w.console ++ B
      ∧ (LogWriter.Write env { file := some f } B w).1.logData = w.logData ++ B
      ∧ (LogWriter.Write env { file := some f } B w).2 = (B.length, none)
      ∧ (fprintf env (Dst.log { file := some f }) B w).console = w.console ++ B
      ∧ (fprintf env (Dst.log { file := some f }) B w).logData = w.logData ++ B := by
  simp [fprintf, LogWriter.Write, osFileWrite, World.emit, hopen, hwrite]

/-- Claim C6. For a non-empty port list `L` and an index below 1 or above
the length of `L` (the default 0 included), the run opens no port, returns
status 1, and prints the header, then one line per port in the order of the
enumeration, line `k` being "k: " followed by the `k`-th port (indented by
one space and ended by a newline) for `k` from 1 to the length of `L`, then
the hint to run with "-help". -/
theorem run_invalid_selection_lists_ports (env : Env) (fl : Flags) (L : List GoString)
    (hL : env.portsList = Except.ok L) (hne : L ≠ []) (hfits : L.length < 2 ^ env.uintBits)
    (hbad : fl.portNumber < 1 ∨ fl.portNumber > L.length) :
    (run env fl).status = Status.exited 1
      ∧ opensOf (run env fl).world.trace = []
      ∧ (run env fl).world.port = Res.unused
      ∧ ∃ lines : List GoString,
          (run env fl).world.console
              = ascii "You must select a valid serial port. Options:\n" ++ lines.flatten
                ++ ascii "Run with \"-help\" for more information.\n"
            ∧ lines.length = L.length
            ∧ ∀ k, 1 ≤ k → k ≤ L.length →
                ∃ name, L.get? (k - 1) = some name
                  ∧ lines.get? (k - 1)
                    = some (ascii " " ++ (fmtD k ++ ascii ": " ++ name) ++ ascii "\n") := by
  rw [run_invalid env fl L hL hne hfits hbad]
  obtain ⟨-, -, p3, -, -, p6, -, p8, -⟩ := printf_obs
    (printOptions L 0 (printf (World.init.emit Op.getPortsList)
      (ascii "You must select a valid serial port. Options:\n")))
    (ascii "Run with \"-help\" for more information.\n")
  obtain ⟨-, -, q3, -, -, q6, -⟩ := printOptions_obs L _ 0
    (printf (World.init.emit Op.getPortsList)
      (ascii "You must select a valid serial port. Options:\n")) rfl
  refine ⟨rfl, ?_, ?_, optionLines 1 L, ?_, optionLines_length L 1, ?_⟩
  · show opensOf (printf _ _).trace = []
    rw [p3, q3]
    simp [printf, World.emit, World.init, opensOf]
  · show (printf _ _).port = Res.unused
    rw [p6, q6]
    simp [printf, World.emit, World.init]
  · show (printf _ _).console = _
    rw [p8, printOptions_console L _ 0 _ rfl]
    simp [printf, World.emit, World.init]
  · intro k h1 hk
    have hlt : k - 1 < L.length := by omega
    refine ⟨L.get ⟨k - 1, hlt⟩, List.get?_eq_get hlt, ?_⟩
    rw [optionLines_get?, List.get?_eq_get hlt]
    have e : 1 + (k - 1) = k := by omega
    simp [e]

theorem deferPortClose_obs (w : World) :
    readsOf (deferPortClose w).trace = readsOf w.trace
      ∧ forwardsOf (deferPortClose w).trace = forwardsOf w.trace
      ∧ opensOf (deferPortClose w).trace = opensOf w.trace
      ∧ createsOf (deferPortClose w).trace = createsOf w.trace
      ∧ (deferPortClose w).logData = w.logData
      ∧ (deferPortClose w).logFile = w.logFile
      ∧ (deferPortClose w).console = w.console
      ∧ (deferPortClose w).port = Res.closed := by
  simp [deferPortClose, World.emit, readsOf, forwardsOf, opensOf, createsOf,
    List.filterMap_append]

theorem close_obs (env : Env) (lw : LogWriter) (w : World) :
    readsOf (LogWriter.Close env lw w).2.1.trace = readsOf w.trace
      ∧ forwardsOf (LogWriter.Close env lw w).2.1.trace = forwardsOf w.trace
      ∧ opensOf (LogWriter.Close env lw w).2.1.trace = opensOf w.trace
      ∧ createsOf (LogWriter.Close env lw w).2.1.trace = createsOf w.trace
      ∧ (LogWriter.Close env lw w).2.1.logData = w.logData
      ∧ (LogWriter.Close env lw w).2.1.port = w.port
      ∧ (LogWriter.Close env lw w).2.1.console = w.console
      ∧ (lw.file ≠ none → w.logFile = Res.opened
          → (LogWriter.Close env lw w).2.1.logFile = Res.closed) := by
  cases lw with
  | mk file =>
    cases file with
    | none => simp [LogWriter.Close]
    | some f =>
      simp only [LogWriter.Close, osFileClose]
      cases hl : w.logFile <;>
        simp [World.emit, readsOf, forwardsOf, opensOf, createsOf, List.filterMap_append]

theorem deferredOf_obs (env : Env) (logFile : GoString) (w : World) :
    readsOf (deferredOf env logFile w).trace = readsOf w.trace
      ∧ forwardsOf (deferredOf env logFile w).trace = forwardsOf w.trace
      ∧ opensOf (deferredOf env logFile w).trace = opensOf w.trace
      ∧ createsOf (deferredOf env logFile w).trace = createsOf w.trace
      ∧ (deferredOf env logFile w).logData = w.logData
      ∧ (deferredOf env logFile w).console = w.console
      ∧ (deferredOf env logFile w).port = Res.closed
      ∧ (logFile = [] → (deferredOf env logFile w).logFile = w.logFile)
      ∧ (logFile ≠ [] → w.logFile = Res.opened → (deferredOf env logFile w).logFile = Res.closed) := by
  unfold deferredOf
  by_cases h : logFile = []
  · obtain ⟨d1, d2, d3, d4, d5, d6, d7, d8⟩ := deferPortClose_obs w
    simp only [h, if_true]
    exact ⟨d1, d2, d3, d4, d5, d7, d8, fun _ => d6, fun hn => absurd rfl hn⟩
  · obtain ⟨c1, c2, c3, c4, c5, c6, c7, c8⟩ :=
      close_obs env { file := some { name := logFile } } w
    obtain ⟨d1, d2, d3, d4, d5, d6, d7, d8⟩ := deferPortClose_obs
      (LogWriter.Close env { file := some { name := logFile } } w).2.1
    simp only [h, if_false]
    exact ⟨d1.trans c1, d2.trans c2, d3.trans c3, d4.trans c4, d5.trans c5, d7.trans c7, d8,
      fun hn => hn.elim, fun _ ho => d6.trans (c8 (by simp) ho)⟩

theorem deferredOf_writes (env : Env) (logFile : GoString) (w : World) :
    writesOf (deferredOf env logFile w).trace = writesOf w.trace := by
  unfold deferredOf
  by_cases h : logFile = []
  · simp [h, deferPortClose, World.emit, writesOf, List.filterMap_append]
  · simp only [h, if_false, deferPortClose, LogWriter.Close, osFileClose, World.emit]
    cases hl : w.logFile <;> simp [writesOf, List.filterMap_append]

theorem withDefers_status (o : Outcome) (d : World → World) :
    (withDefers o d).status = o.status := by
  unfold withDefers
  split <;> simp_all

theorem withDefers_exited (o : Outcome) (d : World → World) (code : Nat)
    (h : o.status = Status.exited code) :
    withDefers o d = { o with world := d o.world } := by
  unfold withDefers
  rw [h]

theorem withDefers_world (o : Outcome) (d : World → World) :
    (withDefers o d).world = o.world ∨ (withDefers o d).world = d o.world := by
  unfold withDefers
  split
  · exact Or.inl rfl
  · exact Or.inl rfl
  · exact Or.inr rfl

/-- The run from the start of the streaming part on: nothing is opened or
created, and when the function has returned, the port is closed and so is
the log file. -/
theorem streaming_frame (env : Env) (p : GoString) (dst : Dst) (logFile : GoString)
    (evs : List LoopEvent) (w : World) :
    opensOf (withDefers (streamLoop env p dst evs initialVars w)
        (deferredOf env logFile)).world.trace = opensOf w.trace
      ∧ createsOf (withDefers (streamLoop env p dst evs initialVars w)
        (deferredOf env logFile)).world.trace = createsOf w.trace
      ∧ (∀ code, (withDefers (streamLoop env p dst evs initialVars w)
            (deferredOf env logFile)).status = Status.exited code →
          (withDefers (streamLoop env p dst evs initialVars w)
            (deferredOf env logFile)).world.port = Res.closed
          ∧ (logFile = [] →
              (withDefers (streamLoop env p dst evs initialVars w)
                (deferredOf env logFile)).world.logFile = w.logFile)
          ∧ (logFile ≠ [] → w.logFile = Res.opened →
              (withDefers (streamLoop env p dst evs initialVars w)
                (deferredOf env logFile)).world.logFile = Res.closed)) := by
  obtain ⟨-, i2, i3, i4, -⟩ := loopRun_frame env p dst evs
    { vars := initialVars, world := w, phase := Phase.start }
  obtain ⟨-, -, d3, d4, -, -, d7, d8, d9⟩ :=
    deferredOf_obs env logFile (streamLoop env p dst evs initialVars w).world
  refine ⟨?_, ?_, ?_⟩
  · rcases withDefers_world (streamLoop env p dst evs initialVars w) (deferredOf env logFile)
      with h | h
    · rw [h]; exact i3
    · rw [h, d3]; exact i3
  · rcases withDefers_world (streamLoop env p dst evs initialVars w) (deferredOf env logFile)
      with h | h
    · rw [h]; exact i4
    · rw [h, d4]; exact i4
  · intro code hcode
    rw [withDefers_status] at hcode
    rw [withDefers_exited _ _ code hcode]
    exact ⟨d7, fun hl => (d8 hl).trans i2, fun hn ho => d9 hn (i2.trans ho)⟩

theorem worldAtLoop_obs (p : GoString) (baud : Int) (logFile : GoString) :
    readsOf (worldAtLoop p baud logFile).trace = []
      ∧ forwardsOf (worldAtLoop p baud logFile).trace = []
      ∧ opensOf (worldAtLoop p baud logFile).trace = [p]
      ∧ (logFile ≠ [] → (worldAtLoop p baud logFile).logFile = Res.opened)
      ∧ writesOf (worldAtLoop p baud logFile).trace = []
      ∧ callsOf (worldAtLoop p baud logFile).trace = 0 := by
  by_cases h : logFile = [] <;>
    simp [worldAtLoop, readsOf, forwardsOf, opensOf, writesOf, callsOf, h]

/-- Claim C5. For a non-empty port list `L` and an unsigned index `i` given
with `-port`, the run opens a port if and only if `1 ≤ i ≤ len(L)`; in that
case the `uint` subtraction `i - 1` does not wrap around, the element access
`L[i-1]` is in range, and the one port opened is that element, the `i`-th of
`L` counting from 1. -/
theorem run_opens_iff_valid_index (env : Env) (fl : Flags) (L : List GoString)
    (hbits : 0 < env.uintBits) (hL : env.portsList = Except.ok L) (hne : L ≠ [])
    (hfits : L.length < 2 ^ env.uintBits) (hidx : fl.portNumber < 2 ^ env.uintBits) :
    (opensOf (run env fl).world.trace ≠ [] ↔ 1 ≤ fl.portNumber ∧ fl.portNumber ≤ L.length)
      ∧ (1 ≤ fl.portNumber → fl.portNumber ≤ L.length →
          uintSub env.uintBits fl.portNumber 1 + 1 = fl.portNumber
          ∧ ∃ p, L.get? (uintSub env.uintBits fl.portNumber 1) = some p
              ∧ L.get? (fl.portNumber - 1) = some p
              ∧ opensOf (run env fl).world.trace = [p]) := by
  have hvalid : 1 ≤ fl.portNumber → fl.portNumber ≤ L.length →
      uintSub env.uintBits fl.portNumber 1 + 1 = fl.portNumber
        ∧ ∃ p, L.get? (uintSub env.uintBits fl.portNumber 1) = some p
            ∧ L.get? (fl.portNumber - 1) = some p
            ∧ opensOf (run env fl).world.trace = [p] := by
    intro h1 h2
    have hsub := uintSub_one env.uintBits fl.portNumber hbits hidx h1
    have hlt : fl.portNumber - 1 < L.length := by omega
    have hget : L.get? (fl.portNumber - 1) = some (L.get ⟨fl.portNumber - 1, hlt⟩) :=
      List.get?_eq_get hlt
    have hs : Selects env fl L (L.get ⟨fl.portNumber - 1, hlt⟩) :=
      { bits := hbits, ports := hL, fits := hfits, inUint := hidx, lower := h1, upper := h2,
        name := hget }
    obtain ⟨r1, r2, r3⟩ := run_selected env fl L _ hs
    refine ⟨by rw [hsub]; omega, _, by rw [hsub]; exact hget, hget, ?_⟩
    cases ho : env.openErr (L.get ⟨fl.portNumber - 1, hlt⟩) fl.baud with
    | some e =>
      rw [r1 e ho]
      simp [printf, World.emit, World.init, opensOf]
    | none =>
      by_cases hc : fl.logFile ≠ [] → env.createErr fl.logFile = none
      · rw [r3 ho hc, (streaming_frame env _ _ fl.logFile env.events _).1]
        by_cases hlog : fl.logFile = [] <;> simp [worldAtLoop, opensOf, hlog]
      · have hlog : fl.logFile ≠ [] := fun h => hc (fun hn => absurd h hn)
        cases hce : env.createErr fl.logFile with
        | none => exact absurd (fun _ => hce) hc
        | some e =>
          rw [r2 e ho hlog hce]
          simp [deferPortClose, printf, World.emit, opensOf]
  refine ⟨⟨?_, ?_⟩, hvalid⟩
  · intro hopens
    by_contra hbad
    have hbad2 : fl.portNumber < 1 ∨ fl.portNumber > L.length := by omega
    apply hopens
    rw [run_invalid env fl L hL hne hfits hbad2]
    obtain ⟨-, -, p3, -⟩ := printf_obs
      (printOptions L 0 (printf (World.init.emit Op.getPortsList)
        (ascii "You must select a valid serial port. Options:\n")))
      (ascii "Run with \"-help\" for more information.\n")
    obtain ⟨-, -, q3, -⟩ := printOptions_obs L _ 0
      (printf (World.init.emit Op.getPortsList)
        (ascii "You must select a valid serial port. Options:\n")) rfl
    show opensOf (printf _ _).trace = []
    rw [p3, q3]
    simp [printf, World.emit, World.init, opensOf]
  · rintro ⟨h1, h2⟩
    obtain ⟨-, p, -, -, hp⟩ := hvalid h1 h2
    rw [hp]
    simp

/-- Claim C10, as amended. On a run with a valid selection of port `p` that
opens, and a non-empty `-log_file` whose creation fails with `e`: the port
has been opened before the file is created, the run prints "Error
establishing log file: Failed creating log file <path>: <e>", performs no
read, closes the port again and returns status 1. -/
theorem run_log_create_failure_closes_port (env : Env) (fl : Flags) (L : List GoString)
    (p e : GoString) (hs : Selects env fl L p) (hopen : env.openErr p fl.baud = none)
    (hlog : fl.logFile ≠ []) (hce : env.createErr fl.logFile = some e) :
    (run env fl).status = Status.exited 1
      ∧ (run env fl).world.console
          = ascii "Error establishing log file: "
            ++ (ascii "Failed creating log file " ++ fl.logFile ++ ascii ": " ++ e)
            ++ ascii "\n"
      ∧ (run env fl).world.trace
          = [Op.getPortsList, Op.openPort p fl.baud, Op.setReadTimeout 500,
              Op.createFile fl.logFile,
              Op.print (ascii "Error establishing log file: "
                ++ (ascii "Failed creating log file " ++ fl.logFile ++ ascii ": " ++ e)
                ++ ascii "\n"),
              Op.portClose]
      ∧ opensOf (run env fl).world.trace = [p]
      ∧ readsOf (run env fl).world.trace = []
      ∧ (run env fl).world.port = Res.closed
      ∧ (run env fl).world.logFile = Res.unused := by
  rw [(run_selected env fl L p hs).2.1 e hopen hlog hce]
  simp [deferPortClose, printf, World.emit, opensOf, readsOf]

theorem loopRun_exited (env : Env) (p : GoString) (dst : Dst) (s : LoopState) (code : Nat)
    (rest : List LoopEvent) :
    loopRun env p dst { s with phase := Phase.exited code } rest
      = { s with phase := Phase.exited code } :=
  loopRun_final env p dst rest _ rfl

/-- A first interrupt with no read in flight: the loop is left through its
condition. -/
theorem loopRun_exit_at_test (env : Env) (p : GoString) (dst : Dst) (s : LoopState)
    (sig : GoString) (more rest : List LoopEvent) (hmore : ∀ ev ∈ more, isSignal ev = true)
    (hp : s.phase = Phase.test) (hc : s.vars.chanClosed = false)
    (hl : s.vars.listening = true) (hpend : s.vars.pending = none) :
    (loopRun env p dst s (LoopEvent.interrupt sig :: LoopEvent.wake
        :: (more ++ LoopEvent.proceed :: rest))).phase = Phase.exited 0
      ∧ (loopRun env p dst s (LoopEvent.interrupt sig :: LoopEvent.wake
        :: (more ++ LoopEvent.proceed :: rest))).world = printf s.world (notice sig) := by
  have hnf : s.phase.isFinal = false := by rw [hp]; rfl
  have hsplit : LoopEvent.interrupt sig :: LoopEvent.wake :: (more ++ LoopEvent.proceed :: rest)
      = (LoopEvent.interrupt sig :: LoopEvent.wake :: more) ++ LoopEvent.proceed :: rest := rfl
  obtain ⟨i1, i2, -, i4⟩ := loopRun_first_interrupt env p dst s sig more hmore hnf hc hl hpend
  rw [hsplit, loopRun_append, loopRun_cons,
    step_test_exit env p dst _ (i1.trans hp) i2, loopRun_exited]
  exact ⟨rfl, i4⟩

/-- A first interrupt while a read is in flight, which then returns within
the capacity of the buffer: its bytes are handed over and the loop is left
through its condition. -/
theorem loopRun_exit_in_flight (env : Env) (p : GoString) (dst : Dst) (s : LoopState)
    (sig : GoString) (more rest : List LoopEvent) (b : List Byte)
    (hmore : ∀ ev ∈ more, isSignal ev = true)
    (hp : s.phase = Phase.test) (hx : s.vars.shouldExit = false)
    (hc : s.vars.chanClosed = false) (hl : s.vars.listening = true)
    (hpend : s.vars.pending = none) (hlen : b.length ≤ s.vars.data.length) :
    (loopRun env p dst s (LoopEvent.proceed :: LoopEvent.proceed :: LoopEvent.interrupt sig
        :: LoopEvent.wake :: (more ++ okRead b :: LoopEvent.proceed :: rest))).phase
        = Phase.exited 0
      ∧ readsOf (loopRun env p dst s (LoopEvent.proceed :: LoopEvent.proceed
        :: LoopEvent.interrupt sig :: LoopEvent.wake
        :: (more ++ okRead b :: LoopEvent.proceed :: rest))).world.trace
        = readsOf s.world.trace ++ [{ bytes := b, err := none }]
      ∧ callsOf (loopRun env p dst s (LoopEvent.proceed :: LoopEvent.proceed
        :: LoopEvent.interrupt sig :: LoopEvent.wake
        :: (more ++ okRead b :: LoopEvent.proceed :: rest))).world.trace
        = callsOf s.world.trace + 1 := by
  have hsplit : LoopEvent.proceed :: LoopEvent.proceed :: LoopEvent.interrupt sig
      :: LoopEvent.wake :: (more ++ okRead b :: LoopEvent.proceed :: rest)
      = [LoopEvent.proceed, LoopEvent.proceed]
        ++ ((LoopEvent.interrupt sig :: LoopEvent.wake :: more)
          ++ okRead b :: LoopEvent.proceed :: rest) := rfl
  have h2 : loopRun env p dst s [LoopEvent.proceed, LoopEvent.proceed]
      = { s with world := s.world.emit Op.readCall, phase := Phase.reading } := by
    simp only [loopRun, List.foldl_cons, List.foldl_nil]
    rw [step_test_pass env p dst s hp hx, step_call env p dst _ rfl]
  obtain ⟨i1, i2, i3, i4⟩ := loopRun_first_interrupt env p dst
    { s with world := s.world.emit Op.readCall, phase := Phase.reading } sig more hmore
    rfl hc hl hpend
  rw [hsplit, loopRun_append, h2, loopRun_append, loopRun_cons]
  generalize hX : loopRun env p dst
    { s with world := s.world.emit Op.readCall, phase := Phase.reading }
    (LoopEvent.interrupt sig :: LoopEvent.wake :: more) = X at i1 i2 i3 i4
  have hXp : X.phase = Phase.reading := i1
  have hXd : X.vars.data = s.vars.data := i3
  have hstep := loopStep_read env p [] X { bytes := b, err := none } hXp
    (by intro _; rw [hXd]; exact hlen)
  have hR : (loopStep env p dst X (okRead b)).phase = Phase.test
      ∧ (loopStep env p dst X (okRead b)).vars.shouldExit = true
      ∧ readsOf (loopStep env p dst X (okRead b)).world.trace
          = readsOf X.world.trace ++ [{ bytes := b, err := none }]
      ∧ callsOf (loopStep env p dst X (okRead b)).world.trace = callsOf X.world.trace := by
    rw [okRead, step_read env p dst X _ hXp]
    by_cases hz : b.length = 0
    · have hnil : b = [] := List.length_eq_zero.mp hz
      subst hnil
      rw [readReturn_empty env p dst X hXp]
      exact ⟨rfl, i2, by simp [World.emit, readsOf, List.filterMap_append],
        by simp [World.emit, callsOf, List.filterMap_append]⟩
    · have h1 : 1 ≤ b.length := by omega
      rw [readReturn_data env p dst X b hXp h1 (by rw [hXd]; exact hlen)]
      obtain ⟨-, -, -, -, f5, -, -, f8⟩ := fprintf_frame env dst b
        (X.world.emit (Op.read { bytes := b, err := none }))
      refine ⟨rfl, i2, ?_, ?_⟩
      · show readsOf (fprintf _ _ _ _).trace = _
        rw [f5]; simp [World.emit, readsOf, List.filterMap_append]
      · show callsOf (fprintf _ _ _ _).trace = _
        rw [f8]; simp [World.emit, callsOf, List.filterMap_append]
  obtain ⟨r1, r2, r3, r4⟩ := hR
  rw [loopRun_cons, step_test_exit env p dst _ r1 r2, loopRun_exited]
  refine ⟨rfl, ?_, ?_⟩
  · show readsOf (loopStep env p dst X (okRead b)).world.trace = _
    rw [r3, i4]
    simp [printf, World.emit, readsOf, List.filterMap_append]
  · show callsOf (loopStep env p dst X (okRead b)).world.trace = _
    rw [r4, i4]
    simp [printf, World.emit, callsOf, List.filterMap_append]

/-- A read that fails, with interrupts and runs of the goroutine while it is
in flight, and the main goroutine returning right after: status 1. -/
theorem loopRun_fail (env : Env) (p : GoString) (dst : Dst) (s : LoopState)
    (mid rest : List LoopEvent) (b : List Byte) (e : GoString)
    (hmid : ∀ ev ∈ mid, isSignal ev = true)
    (hp : s.phase = Phase.test) (hx : s.vars.shouldExit = false)
    (hc : s.vars.chanClosed = false) :
    (loopRun env p dst s (LoopEvent.proceed :: LoopEvent.proceed
        :: (mid ++ LoopEvent.readReturns { bytes := b, err := some e }
          :: LoopEvent.proceed :: rest))).phase = Phase.exited 1
      ∧ (mid = [] →
          (loopRun env p dst s (LoopEvent.proceed :: LoopEvent.proceed
            :: (mid ++ LoopEvent.readReturns { bytes := b, err := some e }
              :: LoopEvent.proceed :: rest))).world
            = printf (((s.world.emit Op.readCall).emit
                (Op.read { bytes := b, err := some e })).emit Op.closeChan) (failure p e)) := by
  have hsplit : LoopEvent.proceed :: LoopEvent.proceed
      :: (mid ++ LoopEvent.readReturns { bytes := b, err := some e } :: LoopEvent.proceed :: rest)
      = [LoopEvent.proceed, LoopEvent.proceed]
        ++ (mid ++ LoopEvent.readReturns { bytes := b, err := some e }
          :: LoopEvent.proceed :: rest) := rfl
  have h2 : loopRun env p dst s [LoopEvent.proceed, LoopEvent.proceed]
      = { s with world := s.world.emit Op.readCall, phase := Phase.reading } := by
    simp only [loopRun, List.foldl_cons, List.foldl_nil]
    rw [step_test_pass env p dst s hp hx, step_call env p dst _ rfl]
  obtain ⟨i1, -, -, -, -⟩ := loopRun_signals env p dst mid
    { s with world := s.world.emit Op.readCall, phase := Phase.reading } hmid rfl hc
  rw [hsplit, loopRun_append, h2, loopRun_append, loopRun_cons]
  rw [step_read env p dst _ _ i1, readReturn_fail env p dst _ b e i1, loopRun_cons,
    step_failed env p dst _ rfl, loopRun_exited]
  refine ⟨rfl, ?_⟩
  intro hnil
  subst hnil
  rfl

/-- The streaming part is entered and the successful reads `bs` are
received, undisturbed: the state at the next test of the flag. -/
theorem loopRun_opening (env : Env) (p : GoString) (dst : Dst) (w : World)
    (bs : List (List Byte)) (hcap : ∀ b ∈ bs, b.length ≤ 512) :
    (loopRun env p dst { vars := initialVars, world := w, phase := Phase.start }
        (LoopEvent.proceed :: readCycles bs)).phase = Phase.test
      ∧ (loopRun env p dst { vars := initialVars, world := w, phase := Phase.start }
        (LoopEvent.proceed :: readCycles bs)).vars.shouldExit = false
      ∧ (loopRun env p dst { vars := initialVars, world := w, phase := Phase.start }
        (LoopEvent.proceed :: readCycles bs)).vars.chanClosed = false
      ∧ (loopRun env p dst { vars := initialVars, world := w, phase := Phase.start }
        (LoopEvent.proceed :: readCycles bs)).vars.listening = true
      ∧ (loopRun env p dst { vars := initialVars, world := w, phase := Phase.start }
        (LoopEvent.proceed :: readCycles bs)).vars.pending = none
      ∧ (loopRun env p dst { vars := initialVars, world := w, phase := Phase.start }
        (LoopEvent.proceed :: readCycles bs)).vars.data.length = 512
      ∧ (loopRun env p dst { vars := initialVars, world := w, phase := Phase.start }
        (LoopEvent.proceed :: readCycles bs)).world.console
          = w.console ++ banner p ++ bs.flatten
      ∧ readsOf (loopRun env p dst { vars := initialVars, world := w, phase := Phase.start }
        (LoopEvent.proceed :: readCycles bs)).world.trace
          = readsOf w.trace ++ bs.map (fun b => { bytes := b, err := none })
      ∧ callsOf (loopRun env p dst { vars := initialVars, world := w, phase := Phase.start }
        (LoopEvent.proceed :: readCycles bs)).world.trace = callsOf w.trace + bs.length := by
  have hlen : initialVars.data.length = 512 := List.length_replicate 512 (0 : Byte)
  rw [loopRun_cons, step_start env p dst _ rfl]
  obtain ⟨i1, i2, i3, i4, i5, i6, i7, i8⟩ := loopRun_readCycles env p dst bs
    { vars := initialVars, world := printf w (banner p), phase := Phase.test } rfl rfl
    (by intro b hb; rw [hlen]; exact hcap b hb)
  obtain ⟨-, -, -, -, g5⟩ := loopRun_frame env p dst (readCycles bs)
    { vars := initialVars, world := printf w (banner p), phase := Phase.test }
  obtain ⟨p1, -, -, -, -, -, -, p8, -, p10⟩ := printf_obs w (banner p)
  exact ⟨i1, i2, i3, i4, i5, g5.trans hlen, by rw [i6, p8], by rw [i7, p1], by rw [i8, p10]⟩

theorem run_status_of_script (env : Env) (fl : Flags) (L : List GoString) (p : GoString)
    (hs : Selects env fl L p) (hopen : env.openErr p fl.baud = none)
    (hcreate : fl.logFile ≠ [] → env.createErr fl.logFile = none) :
    (run env fl).status
        = (loopRun env p (dstOf fl.logFile)
            { vars := initialVars, world := worldAtLoop p fl.baud fl.logFile,
              phase := Phase.start } env.events).phase.status := by
  rw [(run_selected env fl L p hs).2.2 hopen hcreate, withDefers_status]
  rfl

/-- Claim C9. On every run in which the port was opened successfully:
whenever `run()` returns, the port is closed, no log file is left open, and
a log file that was created is closed. The three exits after the port is
acquired do return: status 1 when the log file cannot be created; status 0
when an interrupt sets the flag, with no read in flight or during a read
that then completes; status 1 when a read fails and the function returns. -/
theorem run_releases_port_and_log (env : Env) (fl : Flags) (L : List GoString) (p : GoString)
    (hs : Selects env fl L p) (hopen : env.openErr p fl.baud = none) :
    (∀ code, (run env fl).status = Status.exited code →
        (run env fl).world.port = Res.closed
          ∧ (run env fl).world.logFile ≠ Res.opened
          ∧ (fl.logFile ≠ [] → env.createErr fl.logFile = none →
              (run env fl).world.logFile = Res.closed))
      ∧ (∀ e, fl.logFile ≠ [] → env.createErr fl.logFile = some e →
          (run env fl).status = Status.exited 1)
      ∧ ((fl.logFile ≠ [] → env.createErr fl.logFile = none) →
          ∀ (bs : List (List Byte)) (sig : GoString) (more rest : List LoopEvent),
            (∀ x ∈ bs, x.length ≤ 512) → (∀ ev ∈ more, isSignal ev = true) →
            (env.events = LoopEvent.proceed :: (readCycles bs
                ++ LoopEvent.interrupt sig :: LoopEvent.wake
                  :: (more ++ LoopEvent.proceed :: rest)) →
              (run env fl).status = Status.exited 0)
            ∧ (∀ b : List Byte, b.length ≤ 512 →
                env.events = LoopEvent.proceed :: (readCycles bs
                  ++ LoopEvent.proceed :: LoopEvent.proceed :: LoopEvent.interrupt sig
                    :: LoopEvent.wake :: (more ++ okRead b :: LoopEvent.proceed :: rest)) →
                (run env fl).status = Status.exited 0))
      ∧ ((fl.logFile ≠ [] → env.createErr fl.logFile = none) →
          ∀ (bs : List (List Byte)) (mid : List LoopEvent) (b : List Byte) (e : GoString)
            (rest : List LoopEvent),
            (∀ x ∈ bs, x.length ≤ 512) → (∀ ev ∈ mid, isSignal ev = true) →
            env.events = LoopEvent.proceed :: (readCycles bs
              ++ LoopEvent.proceed :: LoopEvent.proceed
                :: (mid ++ LoopEvent.readReturns { bytes := b, err := some e }
                  :: LoopEvent.proceed :: rest)) →
            (run env fl).status = Status.exited 1) := by
  obtain ⟨-, r2, r3⟩ := run_selected env fl L p hs
  refine ⟨?_, ?_, ?_, ?_⟩
  · intro code hcode
    by_cases hc : fl.logFile ≠ [] → env.createErr fl.logFile = none
    · rw [r3 hopen hc] at hcode ⊢
      obtain ⟨-, -, f3⟩ := streaming_frame env p (dstOf fl.logFile) fl.logFile env.events
        (worldAtLoop p fl.baud fl.logFile)
      obtain ⟨g1, g2, g3⟩ := f3 code hcode
      have ho := (worldAtLoop_obs p fl.baud fl.logFile).2.2.2.1
      refine ⟨g1, ?_, fun hlog _ => g3 hlog (ho hlog)⟩
      by_cases hlog : fl.logFile = []
      · rw [g2 hlog]
        simp [worldAtLoop, hlog]
      · rw [g3 hlog (ho hlog)]
        simp
    · have hlog : fl.logFile ≠ [] := fun h => hc (fun hn => absurd h hn)
      cases hce : env.createErr fl.logFile with
      | none => exact absurd (fun _ => hce) hc
      | some e =>
        rw [r2 e hopen hlog hce]
        simp [deferPortClose, printf, World.emit]
  · intro e hlog hce
    rw [r2 e hopen hlog hce]
  · intro hc bs sig more rest hcap hmore
    obtain ⟨a1, a2, a3, a4, a5, a6, -⟩ := loopRun_opening env p (dstOf fl.logFile)
      (worldAtLoop p fl.baud fl.logFile) bs hcap
    refine ⟨?_, ?_⟩
    · intro hev
      rw [run_status_of_script env fl L p hs hopen hc, hev,
        ← List.cons_append, loopRun_append,
        (loopRun_exit_at_test env p (dstOf fl.logFile) _ sig more rest hmore a1 a3 a4 a5).1]
      rfl
    · intro b hb hev
      rw [run_status_of_script env fl L p hs hopen hc, hev,
        ← List.cons_append, loopRun_append,
        (loopRun_exit_in_flight env p (dstOf fl.logFile) _ sig more rest b hmore a1 a2 a3 a4 a5
          (by rw [a6]; exact hb)).1]
      rfl
  · intro hc bs mid b e rest hcap hmid hev
    obtain ⟨a1, a2, a3, -⟩ := loopRun_opening env p (dstOf fl.logFile)
      (worldAtLoop p fl.baud fl.logFile) bs hcap
    rw [run_status_of_script env fl L p hs hopen hc, hev,
      ← List.cons_append, loopRun_append,
      (loopRun_fail env p (dstOf fl.logFile) _ mid rest b e hmid a1 a2 a3).1]
    rfl

theorem scriptReads_readCycles (bs : List (List Byte)) :
    scriptReads (readCycles bs) = bs.map (fun b => { bytes := b, err := none }) := by
  induction bs with
  | nil => rfl
  | cons b bs ih =>
    show scriptReads (LoopEvent.proceed :: LoopEvent.proceed :: okRead b :: readCycles bs) = _
    rw [scriptReads_cons_other _ _ (by intro r h; cases h),
      scriptReads_cons_other _ _ (by intro r h; cases h), okRead, scriptReads_cons_read, ih]
    rfl

/-- What the undisturbed loop has handed over, written to the file and
stored in it after the successful reads `bs`. -/
theorem opening_obs (env : Env) (p : GoString) (logFile : GoString) (w : World)
    (bs : List (List Byte)) (hcap : ∀ b ∈ bs, b.length ≤ 512) :
    forwardsOf (loopRun env p (dstOf logFile)
        { vars := initialVars, world := w, phase := Phase.start }
        (LoopEvent.proceed :: readCycles bs)).world.trace
        = forwardsOf w.trace ++ bs.filter (fun b => decide (1 ≤ b.length))
      ∧ writesOf (loopRun env p (dstOf logFile)
        { vars := initialVars, world := w, phase := Phase.start }
        (LoopEvent.proceed :: readCycles bs)).world.trace
        = writesOf w.trace
          ++ (if logFile = [] then [] else bs.filter (fun b => decide (1 ≤ b.length)))
      ∧ (logFile ≠ [] → w.logFile = Res.opened → (∀ k, env.writeErr k = none) →
          (loopRun env p (dstOf logFile)
            { vars := initialVars, world := w, phase := Phase.start }
            (LoopEvent.proceed :: readCycles bs)).world.logData = w.logData ++ bs.flatten) := by
  have hlen : initialVars.data.length = 512 := List.length_replicate 512 (0 : Byte)
  obtain ⟨taken, -, t2, t3, t4, t5⟩ := loopRun_invariant env p logFile
    (LoopEvent.proceed :: readCycles bs)
    { vars := initialVars, world := w, phase := Phase.start }
    (by
      intro r hr _
      rw [scriptReads_cons_other _ _ (by intro r h; cases h), scriptReads_readCycles] at hr
      obtain ⟨b, hb, rfl⟩ := List.mem_map.mp hr
      show b.length ≤ initialVars.data.length
      rw [hlen]
      exact hcap b hb)
  obtain ⟨-, -, -, -, -, -, -, a8, -⟩ := loopRun_opening env p (dstOf logFile) w bs hcap
  have htaken : taken = bs.map (fun b => { bytes := b, err := none }) :=
    List.append_cancel_left (t2.symm.trans a8)
  subst htaken
  rw [delivered_ok] at t3 t4 t5
  refine ⟨t3, t4, fun hl ho hw => ?_⟩
  rw [t5 hl ho hw, flatten_filter_nonempty]

/-- The observations on the world of a run that reaches the streaming
part are those on the state of the streaming part at the end of the
script: the deferred calls read nothing, hand nothing over and write
nothing. -/
theorem run_world_obs (env : Env) (fl : Flags) (L : List GoString) (p : GoString)
    (hs : Selects env fl L p) (hopen : env.openErr p fl.baud = none)
    (hcreate : fl.logFile ≠ [] → env.createErr fl.logFile = none) :
    readsOf (run env fl).world.trace
        = readsOf (loopRun env p (dstOf fl.logFile)
            { vars := initialVars, world := worldAtLoop p fl.baud fl.logFile,
              phase := Phase.start } env.events).world.trace
      ∧ forwardsOf (run env fl).world.trace
        = forwardsOf (loopRun env p (dstOf fl.logFile)
            { vars := initialVars, world := worldAtLoop p fl.baud fl.logFile,
              phase := Phase.start } env.events).world.trace
      ∧ writesOf (run env fl).world.trace
        = writesOf (loopRun env p (dstOf fl.logFile)
            { vars := initialVars, world := worldAtLoop p fl.baud fl.logFile,
              phase := Phase.start } env.events).world.trace
      ∧ (run env fl).world.logData
        = (loopRun env p (dstOf fl.logFile)
            { vars := initialVars, world := worldAtLoop p fl.baud fl.logFile,
              phase := Phase.start } env.events).world.logData
      ∧ (run env fl).world.console
        = (loopRun env p (dstOf fl.logFile)
            { vars := initialVars, world := worldAtLoop p fl.baud fl.logFile,
              phase := Phase.start } env.events).world.console := by
  rw [(run_selected env fl L p hs).2.2 hopen hcreate]
  obtain ⟨d1, d2, -, -, d5, d6, -⟩ := deferredOf_obs env fl.logFile
    (streamLoop env p (dstOf fl.logFile) env.events initialVars
      (worldAtLoop p fl.baud fl.logFile)).world
  have d7 := deferredOf_writes env fl.logFile
    (streamLoop env p (dstOf fl.logFile) env.events initialVars
      (worldAtLoop p fl.baud fl.logFile)).world
  rcases withDefers_world (streamLoop env p (dstOf fl.logFile) env.events initialVars
    (worldAtLoop p fl.baud fl.logFile)) (deferredOf env fl.logFile) with h | h
  · rw [h]; exact ⟨rfl, rfl, rfl, rfl, rfl⟩
  · rw [h]; exact ⟨d1, d2, d7, d5, d6⟩

/-- Claim C1, as amended. On a run that streams from the open port:
whatever the script, as long as every successful read carries at most 512
bytes, the reads received come from the script in order, the slices handed
to `outputDst` are exactly the bytes of the received reads that succeeded
with at least one byte, and the file is written with these slices and
nothing else, so that with `-log_file` set and file writes that succeed the
contents of the file are their concatenation. When the port returns the
successful reads `bs` while the loop is active, all of them are received and
exactly the non-empty ones are handed over, in order, with nothing between
or around them; this also holds when a failing read follows, whose message
goes to the console and not to the file. -/
theorem run_forwards_exactly_reads (env : Env) (fl : Flags) (L : List GoString) (p : GoString)
    (hs : Selects env fl L p) (hopen : env.openErr p fl.baud = none)
    (hcreate : fl.logFile ≠ [] → env.createErr fl.logFile = none) :
    ((∀ r ∈ scriptReads env.events, r.err = none → r.bytes.length ≤ 512) →
        (readsOf (run env fl).world.trace).Sublist (scriptReads env.events)
          ∧ forwardsOf (run env fl).world.trace
              = ((readsOf (run env fl).world.trace).filter
                  (fun r => r.err.isNone && decide (1 ≤ r.bytes.length))).map ReadResult.bytes
          ∧ writesOf (run env fl).world.trace
              = (if fl.logFile = [] then [] else forwardsOf (run env fl).world.trace)
          ∧ (fl.logFile ≠ [] → (∀ k, env.writeErr k = none) →
              (run env fl).world.logData = (forwardsOf (run env fl).world.trace).flatten))
      ∧ (∀ bs : List (List Byte), (∀ b ∈ bs, b.length ≤ 512) →
          env.events = LoopEvent.proceed :: readCycles bs →
          (run env fl).status = Status.running
            ∧ readsOf (run env fl).world.trace = bs.map (fun b => { bytes := b, err := none })
            ∧ forwardsOf (run env fl).world.trace = bs.filter (fun b => decide (1 ≤ b.length))
            ∧ (forwardsOf (run env fl).world.trace).flatten = bs.flatten
            ∧ (run env fl).world.console = banner p ++ bs.flatten
            ∧ (fl.logFile ≠ [] → (∀ k, env.writeErr k = none) →
                (run env fl).world.logData = bs.flatten))
      ∧ (∀ (bs : List (List Byte)) (b : List Byte) (e : GoString) (rest : List LoopEvent),
          (∀ x ∈ bs, x.length ≤ 512) →
          env.events = LoopEvent.proceed :: (readCycles bs
            ++ LoopEvent.proceed :: LoopEvent.proceed
              :: LoopEvent.readReturns { bytes := b, err := some e }
                :: LoopEvent.proceed :: rest) →
          (run env fl).status = Status.exited 1
            ∧ readsOf (run env fl).world.trace
                = bs.map (fun x => { bytes := x, err := none }) ++ [{ bytes := b, err := some e }]
            ∧ forwardsOf (run env fl).world.trace = bs.filter (fun x => decide (1 ≤ x.length))
            ∧ (run env fl).world.console = banner p ++ bs.flatten ++ failure p e
            ∧ (fl.logFile ≠ [] → (∀ k, env.writeErr k = none) →
                (run env fl).world.logData = bs.flatten)) := by
  obtain ⟨w1, w2, w3, w4, w5⟩ := run_world_obs env fl L p hs hopen hcreate
  obtain ⟨o1, o2, -, o4, o5, -⟩ := worldAtLoop_obs p fl.baud fl.logFile
  have hlen : initialVars.data.length = 512 := List.length_replicate 512 (0 : Byte)
  have hdata0 : (worldAtLoop p fl.baud fl.logFile).logData = [] := rfl
  have hcons0 : (worldAtLoop p fl.baud fl.logFile).console = [] := rfl
  refine ⟨?_, ?_, ?_⟩
  · intro hcap
    obtain ⟨taken, t1, t2, t3, t4, t5⟩ := loopRun_invariant env p fl.logFile env.events
      { vars := initialVars, world := worldAtLoop p fl.baud fl.logFile, phase := Phase.start }
      (by intro r hr he
          show r.bytes.length ≤ initialVars.data.length
          rw [hlen]
          exact hcap r hr he)
    rw [o1, List.nil_append] at t2
    rw [o2, List.nil_append] at t3
    rw [o5, List.nil_append] at t4
    rw [w1, w2, w3, w4, t2, t3, t4]
    refine ⟨t1, rfl, rfl, fun hl hw => ?_⟩
    rw [t5 hl (o4 hl) hw, hdata0, List.nil_append]
  · intro bs hcap hev
    obtain ⟨a1, -, -, -, -, -, a7, a8, -⟩ := loopRun_opening env p (dstOf fl.logFile)
      (worldAtLoop p fl.baud fl.logFile) bs hcap
    obtain ⟨b1, -, b3⟩ := opening_obs env p fl.logFile (worldAtLoop p fl.baud fl.logFile)
      bs hcap
    rw [run_status_of_script env fl L p hs hopen hcreate, w1, w2, w4, w5, hev, a1, a7, a8,
      b1, o1, o2, hcons0]
    refine ⟨rfl, by simp, by simp, by simp [flatten_filter_nonempty], by simp,
      fun hl hw => ?_⟩
    rw [b3 hl (o4 hl) hw, hdata0, List.nil_append]
  · intro bs b e rest hcap hev
    obtain ⟨a1, a2, a3, -, -, -, a7, a8, -⟩ := loopRun_opening env p (dstOf fl.logFile)
      (worldAtLoop p fl.baud fl.logFile) bs hcap
    obtain ⟨b1, -, b3⟩ := opening_obs env p fl.logFile (worldAtLoop p fl.baud fl.logFile)
      bs hcap
    have hf := loopRun_fail env p (dstOf fl.logFile)
      (loopRun env p (dstOf fl.logFile)
        { vars := initialVars, world := worldAtLoop p fl.baud fl.logFile,
          phase := Phase.start } (LoopEvent.proceed :: readCycles bs))
      [] rest b e (by intro ev hev2; cases hev2) a1 a2 a3
    simp only [List.nil_append] at hf
    obtain ⟨f1, f2⟩ := hf
    have f3 := f2 trivial
    rw [run_status_of_script env fl L p hs hopen hcreate, w1, w2, w4, w5, hev,
      ← List.cons_append, loopRun_append, f1, f3]
    refine ⟨rfl, ?_, ?_, ?_, fun hl hw => ?_⟩
    · simp only [printf, World.emit, readsOf, List.filterMap_append] at a8 ⊢
      rw [a8]
      simp [worldAtLoop]
    · simp only [printf, World.emit, forwardsOf, List.filterMap_append] at b1 ⊢
      rw [b1]
      simp [worldAtLoop]
    · simp only [printf, World.emit]
      rw [a7, hcons0]
      simp
    · simp only [printf, World.emit]
      rw [b3 hl (o4 hl) hw, hdata0, List.nil_append]

/-! ## The transition system of the control -/

theorem exec_final (f : Bool) (n : Nat) (ph : Phase) (hfin : ph.isFinal = true)
    (ms : List Move) (s1 : Ctl)
    (h : Ctl.exec { shouldExit := f, readsStarted := n, phase := ph } ms = some s1) :
    ms = [] ∧ s1 = { shouldExit := f, readsStarted := n, phase := ph } := by
  cases ms with
  | nil => simp [Ctl.exec] at h; exact ⟨rfl, h.symm⟩
  | cons m ms =>
    cases ph <;> simp [Phase.isFinal] at hfin <;> cases m <;> simp [Ctl.exec, Ctl.step] at h

theorem exec_test_set (n : Nat) (ms : List Move) (s1 : Ctl)
    (h : Ctl.exec { shouldExit := true, readsStarted := n, phase := Phase.test } ms = some s1) :
    (ms = [] ∧ s1 = { shouldExit := true, readsStarted := n, phase := Phase.test })
      ∨ (ms = [Move.advance]
          ∧ s1 = { shouldExit := true, readsStarted := n, phase := Phase.exited 0 }) := by
  cases ms with
  | nil => simp [Ctl.exec] at h; exact Or.inl ⟨rfl, h.symm⟩
  | cons m ms =>
    cases m with
    | signal => simp [Ctl.exec, Ctl.step] at h
    | readOk => simp [Ctl.exec, Ctl.step] at h
    | readFail => simp [Ctl.exec, Ctl.step] at h
    | advance =>
      simp only [Ctl.exec, Ctl.step, if_true] at h
      obtain ⟨h1, h2⟩ := exec_final true n (Phase.exited 0) rfl ms s1 h
      exact Or.inr ⟨by rw [h1], h2⟩

theorem exec_failed (n : Nat) (ms : List Move) (s1 : Ctl)
    (h : Ctl.exec { shouldExit := true, readsStarted := n, phase := Phase.failed } ms
      = some s1) :
    (ms = [] ∧ s1 = { shouldExit := true, readsStarted := n, phase := Phase.failed })
      ∨ (ms = [Move.advance]
          ∧ s1 = { shouldExit := true, readsStarted := n, phase := Phase.exited 1 })
      ∨ (ms = [Move.signal]
          ∧ s1 = { shouldExit := true, readsStarted := n, phase := Phase.crashed }) := by
  cases ms with
  | nil => simp [Ctl.exec] at h; exact Or.inl ⟨rfl, h.symm⟩
  | cons m ms =>
    cases m with
    | readOk => simp [Ctl.exec, Ctl.step] at h
    | readFail => simp [Ctl.exec, Ctl.step] at h
    | advance =>
      simp only [Ctl.exec, Ctl.step] at h
      obtain ⟨h1, h2⟩ := exec_final true n (Phase.exited 1) rfl ms s1 h
      exact Or.inr (Or.inl ⟨by rw [h1], h2⟩)
    | signal =>
      simp only [Ctl.exec, Ctl.step] at h
      obtain ⟨h1, h2⟩ := exec_final true n Phase.crashed rfl ms s1 h
      exact Or.inr (Or.inr ⟨by rw [h1], h2⟩)

theorem exec_reading_set (n : Nat) (ms : List Move) (s1 : Ctl)
    (h : Ctl.exec { shouldExit := true, readsStarted := n, phase := Phase.reading } ms
      = some s1) :
    (ms = [] ∧ s1 = { shouldExit := true, readsStarted := n, phase := Phase.reading })
      ∨ (ms = [Move.readOk]
          ∧ s1 = { shouldExit := true, readsStarted := n, phase := Phase.test })
      ∨ (ms = [Move.readOk, Move.advance]
          ∧ s1 = { shouldExit := true, readsStarted := n, phase := Phase.exited 0 })
      ∨ (ms = [Move.readFail]
          ∧ s1 = { shouldExit := true, readsStarted := n, phase := Phase.failed })
      ∨ (ms = [Move.readFail, Move.advance]
          ∧ s1 = { shouldExit := true, readsStarted := n, phase := Phase.exited 1 })
      ∨ (ms = [Move.readFail, Move.signal]
          ∧ s1 = { shouldExit := true, readsStarted := n, phase := Phase.crashed }) := by
  cases ms with
  | nil => simp [Ctl.exec] at h; exact Or.inl ⟨rfl, h.symm⟩
  | cons m ms =>
    cases m with
    | signal => simp [Ctl.exec, Ctl.step] at h
    | advance => simp [Ctl.exec, Ctl.step] at h
    | readOk =>
      simp only [Ctl.exec, Ctl.step] at h
      rcases exec_test_set n ms s1 h with ⟨h1, h2⟩ | ⟨h1, h2⟩
      · exact Or.inr (Or.inl ⟨by rw [h1], h2⟩)
      · exact Or.inr (Or.inr (Or.inl ⟨by rw [h1], h2⟩))
    | readFail =>
      simp only [Ctl.exec, Ctl.step] at h
      rcases exec_failed n ms s1 h with ⟨h1, h2⟩ | ⟨h1, h2⟩ | ⟨h1, h2⟩
      · exact Or.inr (Or.inr (Or.inr (Or.inl ⟨by rw [h1], h2⟩)))
      · exact Or.inr (Or.inr (Or.inr (Or.inr (Or.inl ⟨by rw [h1], h2⟩))))
      · exact Or.inr (Or.inr (Or.inr (Or.inr (Or.inr ⟨by rw [h1], h2⟩))))

theorem exec_call_set (n : Nat) (ms : List Move) (s1 : Ctl)
    (h : Ctl.exec { shouldExit := true, readsStarted := n, phase := Phase.call } ms = some s1) :
    (ms = [] ∧ s1 = { shouldExit := true, readsStarted := n, phase := Phase.call })
      ∨ ∃ ms1, ms = Move.advance :: ms1
          ∧ Ctl.exec { shouldExit := true, readsStarted := n + 1, phase := Phase.reading } ms1
            = some s1 := by
  cases ms with
  | nil => simp [Ctl.exec] at h; exact Or.inl ⟨rfl, h.symm⟩
  | cons m ms =>
    cases m with
    | signal => simp [Ctl.exec, Ctl.step] at h
    | readOk => simp [Ctl.exec, Ctl.step] at h
    | readFail => simp [Ctl.exec, Ctl.step] at h
    | advance =>
      simp only [Ctl.exec, Ctl.step] at h
      exact Or.inr ⟨ms, rfl, h⟩

theorem exec_start_set (n : Nat) (ms : List Move) (s1 : Ctl)
    (h : Ctl.exec { shouldExit := true, readsStarted := n, phase := Phase.start } ms
      = some s1) :
    (ms = [] ∧ s1 = { shouldExit := true, readsStarted := n, phase := Phase.start })
      ∨ (ms = [Move.advance]
          ∧ s1 = { shouldExit := true, readsStarted := n, phase := Phase.test })
      ∨ (ms = [Move.advance, Move.advance]
          ∧ s1 = { shouldExit := true, readsStarted := n, phase := Phase.exited 0 }) := by
  cases ms with
  | nil => simp [Ctl.exec] at h; exact Or.inl ⟨rfl, h.symm⟩
  | cons m ms =>
    cases m with
    | signal => simp [Ctl.exec, Ctl.step] at h
    | readOk => simp [Ctl.exec, Ctl.step] at h
    | readFail => simp [Ctl.exec, Ctl.step] at h
    | advance =>
      simp only [Ctl.exec, Ctl.step] at h
      rcases exec_test_set n ms s1 h with ⟨h1, h2⟩ | ⟨h1, h2⟩
      · exact Or.inr (Or.inl ⟨by rw [h1], h2⟩)
      · exact Or.inr (Or.inr ⟨by rw [h1], h2⟩)

/-- Before the process has ended, some move is enabled. -/
theorem Ctl.progress (s : Ctl) (h : s.phase.isFinal = false) :
    ∃ m s2, s.step m = some s2 := by
  obtain ⟨f, n, ph⟩ := s
  cases ph with
  | start => exact ⟨Move.advance, _, rfl⟩
  | test =>
    cases f
    · exact ⟨Move.advance, _, rfl⟩
    · exact ⟨Move.advance, _, rfl⟩
  | call => exact ⟨Move.advance, _, rfl⟩
  | reading => exact ⟨Move.readOk, _, rfl⟩
  | failed => exact ⟨Move.advance, _, rfl⟩
  | exited c => simp [Phase.isFinal] at h
  | panicked => simp [Phase.isFinal] at h
  | crashed => simp [Phase.isFinal] at h

/-- With the flag set, a read in flight may complete, and the loop is then
left through its condition. -/
theorem exec_completes (s : Ctl) (hflag : s.shouldExit = true)
    (hp : s.phase = Phase.reading) :
    Ctl.exec s [Move.readOk, Move.advance] = some { s with phase := Phase.exited 0 } := by
  obtain ⟨f, n, ph⟩ := s
  simp only at hflag hp
  subst hflag hp
  rfl

/-- Claim C4, as amended. In the transition system of the streaming loop,
from any state of the loop in which the cancellation flag is set: at most
one further read is started; a read in flight may complete, after which the
loop is left through its condition; a read whose test passed before the flag
was set (the main goroutine stands between the test and the call of
`port.Read`) is still started, and in no other case does a read begin; at
most three further moves are possible, and before the process has ended one
always is; and whenever `run()` returns, its exit status is 0 if no read
failed (the loop was left through its condition) and 1 if that read
failed. -/
theorem after_flag_at_most_one_read (s s1 : Ctl) (ms : List Move)
    (hflag : s.shouldExit = true) (hloop : s.phase.inLoop = true)
    (hexec : Ctl.exec s ms = some s1) :
    s1.shouldExit = true
      ∧ s.readsStarted ≤ s1.readsStarted ∧ s1.readsStarted ≤ s.readsStarted + 1
      ∧ (s.phase ≠ Phase.call → s1.readsStarted = s.readsStarted)
      ∧ ms.length ≤ 3
      ∧ (∀ code, s1.phase = Phase.exited code →
          (Move.readFail ∉ ms ∧ code = 0) ∨ (Move.readFail ∈ ms ∧ code = 1))
      ∧ (s.phase = Phase.call → ms ≠ [] → s1.readsStarted = s.readsStarted + 1)
      ∧ (s.phase = Phase.reading →
          Ctl.exec s [Move.readOk, Move.advance] = some { s with phase := Phase.exited 0 })
      ∧ (s1.phase.isFinal = false → ∃ m s2, s1.step m = some s2) := by
  refine ⟨?_, ?_, ?_, ?_, ?_, ?_, ?_, exec_completes s hflag, Ctl.progress s1⟩ <;>
  · obtain ⟨f, n, ph⟩ := s
    simp only at hflag hloop
    subst hflag
    cases ph with
    | exited c => simp [Phase.inLoop] at hloop
    | panicked => simp [Phase.inLoop] at hloop
    | crashed => simp [Phase.inLoop] at hloop
    | failed => simp [Phase.inLoop] at hloop
    | start =>
      rcases exec_start_set n ms s1 hexec with ⟨h1, h2⟩ | ⟨h1, h2⟩ | ⟨h1, h2⟩ <;>
        subst h1 h2 <;> simp
    | test =>
      rcases exec_test_set n ms s1 hexec with ⟨h1, h2⟩ | ⟨h1, h2⟩ <;>
        subst h1 h2 <;> simp
    | reading =>
      rcases exec_reading_set n ms s1 hexec with
        ⟨h1, h2⟩ | ⟨h1, h2⟩ | ⟨h1, h2⟩ | ⟨h1, h2⟩ | ⟨h1, h2⟩ | ⟨h1, h2⟩ <;>
        subst h1 h2 <;> simp
    | call =>
      rcases exec_call_set n ms s1 hexec with ⟨h1, h2⟩ | ⟨ms1, h1, hrest⟩
      · subst h1 h2; simp
      · subst h1
        rcases exec_reading_set (n + 1) ms1 s1 hrest with
          ⟨h1, h2⟩ | ⟨h1, h2⟩ | ⟨h1, h2⟩ | ⟨h1, h2⟩ | ⟨h1, h2⟩ | ⟨h1, h2⟩ <;>
          subst h1 h2 <;> simp

/-! ## The streaming part of `run` is an execution of the transition system -/

/-- One event of the script, seen on the control: nothing, or one move of
the transition system. The channel is closed exactly after a failed read,
where the flag is set. -/
theorem loopStep_ctl (env : Env) (p : GoString) (dst : Dst) (s : LoopState) (ev : LoopEvent)
    (hinv : (s.vars.chanClosed = true → s.phase = Phase.failed ∨ s.phase.isFinal = true)
      ∧ (s.phase = Phase.failed → s.vars.shouldExit = true))
    (hcap : ∀ r, ev = LoopEvent.readReturns r → r.err = none →
      r.bytes.length ≤ s.vars.data.length) :
    ((loopStep env p dst s ev).ctl = s.ctl
        ∨ ∃ m, s.ctl.step m = some (loopStep env p dst s ev).ctl)
      ∧ ((loopStep env p dst s ev).vars.chanClosed = true →
          (loopStep env p dst s ev).phase = Phase.failed
            ∨ (loopStep env p dst s ev).phase.isFinal = true)
      ∧ ((loopStep env p dst s ev).phase = Phase.failed →
          (loopStep env p dst s ev).vars.shouldExit = true) := by
  obtain ⟨hc, hf⟩ := hinv
  by_cases hfin : s.phase.isFinal = true
  · rw [loopStep_final env p dst s ev hfin]
    exact ⟨Or.inl rfl, hc, hf⟩
  · have hnf : s.phase.isFinal = false := by simpa using hfin
    cases ev with
    | interrupt sig =>
      simp only [loopStep, hnf, Bool.false_eq_true, if_false, deliver]
      cases hcl : s.vars.chanClosed with
      | true =>
        have hph : s.phase = Phase.failed := by
          rcases hc hcl with h | h
          · exact h
          · rw [h] at hnf; cases hnf
        simp only [if_true]
        refine ⟨Or.inr ⟨Move.signal, ?_⟩, fun _ => Or.inr rfl, fun h => by cases h⟩
        simp [LoopState.ctl, Ctl.step, hph]
      | false =>
        simp only [Bool.false_eq_true, if_false]
        cases hpend : s.vars.pending with
        | none =>
          refine ⟨Or.inl rfl, fun h => ?_, hf⟩
          simp only at h
          cases h
        | some _ =>
          refine ⟨Or.inl rfl, fun h => ?_, hf⟩
          simp only at h
          rw [hcl] at h
          cases h
    | wake =>
      simp only [loopStep, hnf, Bool.false_eq_true, if_false, goroutine]
      cases hl : s.vars.listening with
      | false => exact ⟨Or.inl rfl, hc, hf⟩
      | true =>
        simp only [if_true]
        cases hpend : s.vars.pending with
        | some sig =>
          refine ⟨?_, hc, fun _ => rfl⟩
          cases hx : s.vars.shouldExit with
          | true =>
            left
            simp [LoopState.ctl, hx, printf, callsOf, List.filterMap_append]
          | false =>
            right
            refine ⟨Move.signal, ?_⟩
            have hph : s.phase ≠ Phase.failed := fun h => by
              have := hf h; rw [hx] at this; cases this
            cases hp : s.phase <;>
              simp_all [LoopState.ctl, Ctl.step, printf, callsOf, List.filterMap_append,
                Phase.isFinal]
        | none =>
          by_cases hcl : s.vars.chanClosed = true
          · simp only [hcl, if_true]
            exact ⟨Or.inl rfl, fun _ => hc hcl, hf⟩
          · simp only [hcl, if_false]
            exact ⟨Or.inl rfl, hc, hf⟩
    | proceed =>
      simp only [loopStep, hnf, Bool.false_eq_true, if_false, advance]
      cases hp : s.phase with
      | start =>
        refine ⟨Or.inr ⟨Move.advance, ?_⟩, fun h => ?_, fun h => by cases h⟩
        · simp [LoopState.ctl, Ctl.step, hp, printf, callsOf, List.filterMap_append]
        · rcases hc h with h2 | h2 <;> simp [hp, Phase.isFinal] at h2
      | test =>
        cases hx : s.vars.shouldExit with
        | true =>
          refine ⟨Or.inr ⟨Move.advance, ?_⟩, fun _ => Or.inr rfl, fun h => by cases h⟩
          simp [LoopState.ctl, Ctl.step, hp, hx]
        | false =>
          refine ⟨Or.inr ⟨Move.advance, ?_⟩, fun h => ?_, fun h => by cases h⟩
          · simp [LoopState.ctl, Ctl.step, hp, hx]
          · rcases hc h with h2 | h2 <;> simp [hp, Phase.isFinal] at h2
      | call =>
        refine ⟨Or.inr ⟨Move.advance, ?_⟩, fun h => ?_, fun h => by cases h⟩
        · simp [LoopState.ctl, Ctl.step, hp, World.emit, callsOf, List.filterMap_append]
        · rcases hc h with h2 | h2 <;> simp [hp, Phase.isFinal] at h2
      | reading =>
        refine ⟨Or.inl ?_, fun h => ?_, fun h => ?_⟩
        · simp [LoopState.ctl, hp]
        · simp only at h
          rcases hc h with h2 | h2 <;> simp [hp, Phase.isFinal] at h2
        · simp only at h
          rw [hp] at h
          cases h
      | failed =>
        refine ⟨Or.inr ⟨Move.advance, ?_⟩, fun _ => Or.inr rfl, fun h => by cases h⟩
        simp [LoopState.ctl, Ctl.step, hp]
      | exited c => rw [hp] at hnf; cases hnf
      | panicked => rw [hp] at hnf; cases hnf
      | crashed => rw [hp] at hnf; cases hnf
    | readReturns r =>
      by_cases hp : s.phase = Phase.reading
      · rw [step_read env p dst s r hp]
        obtain ⟨b, err⟩ := r
        cases err with
        | some e =>
          rw [readReturn_fail env p dst s b e hp]
          refine ⟨Or.inr ⟨Move.readFail, ?_⟩, fun _ => Or.inl rfl, fun _ => rfl⟩
          simp [LoopState.ctl, Ctl.step, hp, printf, World.emit, callsOf,
            List.filterMap_append]
        | none =>
          have hlen : b.length ≤ s.vars.data.length := hcap _ rfl rfl
          have hcl : s.vars.chanClosed = true → False := by
            intro h
            rcases hc h with h2 | h2 <;> simp [hp, Phase.isFinal] at h2
          by_cases hz : b.length = 0
          · have hnil : b = [] := List.length_eq_zero.mp hz
            subst hnil
            rw [readReturn_empty env p dst s hp]
            refine ⟨Or.inr ⟨Move.readOk, ?_⟩, fun h => (hcl h).elim, fun h => by cases h⟩
            simp [LoopState.ctl, Ctl.step, hp, World.emit, callsOf, List.filterMap_append]
          · have h1 : 1 ≤ b.length := by omega
            rw [readReturn_data env p dst s b hp h1 hlen]
            obtain ⟨-, -, -, -, -, -, -, f8⟩ := fprintf_frame env dst b
              (s.world.emit (Op.read { bytes := b, err := none }))
            refine ⟨Or.inr ⟨Move.readOk, ?_⟩, fun h => (hcl h).elim, fun h => by cases h⟩
            simp only [LoopState.ctl, Ctl.step, hp, f8]
            simp [World.emit, callsOf, List.filterMap_append]
      · rw [loopStep_read_idle env p dst s r hp]
        exact ⟨Or.inl rfl, hc, hf⟩

/-- Every run of the streaming part, on a script whose successful reads fit
the buffer, is an execution of the transition system. -/
theorem loopRun_is_execution (env : Env) (p : GoString) (dst : Dst) :
    ∀ (evs : List LoopEvent) (s : LoopState),
      (s.vars.chanClosed = true → s.phase = Phase.failed ∨ s.phase.isFinal = true) →
      (s.phase = Phase.failed → s.vars.shouldExit = true) →
      (∀ r ∈ scriptReads evs, r.err = none → r.bytes.length ≤ s.vars.data.length) →
      ∃ ms, Ctl.exec s.ctl ms = some (loopRun env p dst s evs).ctl := by
  intro evs
  induction evs with
  | nil => intro s _ _ _; exact ⟨[], rfl⟩
  | cons ev evs ih =>
    intro s hc hf hcap
    obtain ⟨-, -, -, -, g5⟩ := loopStep_frame env p dst s ev
    obtain ⟨hstep, hc1, hf1⟩ := loopStep_ctl env p dst s ev ⟨hc, hf⟩
      (by intro r hr he
          apply hcap r _ he
          rw [hr, scriptReads_cons_read]
          exact List.mem_cons_self _ _)
    obtain ⟨ms, hms⟩ := ih (loopStep env p dst s ev) hc1 hf1
      (by intro r hr he
          rw [g5]
          apply hcap r _ he
          by_cases h : ∃ r0, ev = LoopEvent.readReturns r0
          · obtain ⟨r0, rfl⟩ := h
            rw [scriptReads_cons_read]
            exact List.mem_cons_of_mem _ hr
          · rw [scriptReads_cons_other ev evs (fun r0 h0 => h ⟨r0, h0⟩)]
            exact hr)
    rw [loopRun_cons]
    rcases hstep with hsame | ⟨m, hm⟩
    · exact ⟨ms, by rw [← hsame]; exact hms⟩
    · exact ⟨m :: ms, by simp only [Ctl.exec, hm]; exact hms⟩

/-- The streaming part of a run, on a script whose successful reads carry at
most 512 bytes, is an execution of the transition system from its initial
state. -/
theorem streaming_is_execution (env : Env) (p : GoString) (baud : Int) (logFile : GoString)
    (evs : List LoopEvent)
    (hcap : ∀ r ∈ scriptReads evs, r.err = none → r.bytes.length ≤ 512) :
    ∃ ms, Ctl.exec Ctl.init ms
      = some (loopRun env p (dstOf logFile)
          { vars := initialVars, world := worldAtLoop p baud logFile, phase := Phase.start }
          evs).ctl := by
  have hlen : initialVars.data.length = 512 := List.length_replicate 512 (0 : Byte)
  have h0 : (LoopState.mk initialVars (worldAtLoop p baud logFile) Phase.start).ctl
      = Ctl.init := by
    simp [LoopState.ctl, Ctl.init, initialVars, (worldAtLoop_obs p baud logFile).2.2.2.2.2]
  rw [← h0]
  exact loopRun_is_execution env p (dstOf logFile) evs _ (fun h => by cases h)
    (fun h => by cases h)
    (by intro r hr he; show _ ≤ initialVars.data.length; rw [hlen]; exact hcap r hr he)

/-! ## The theorems at concrete inputs -/

set_option maxRecDepth 100000

theorem demo_selects (events : List LoopEvent) (logFile : GoString) :
    Selects (demoEnv events) (demoFlags 1 logFile) demoPorts (ascii "/dev/ttyUSB0") :=
  { bits := (by decide : 0 < 64), ports := rfl, fits := (by decide : 2 < 2 ^ 64),
    inUint := (by decide : 1 < 2 ^ 64), lower := Nat.le_refl 1,
    upper := (by decide : 1 ≤ 2), name := rfl }

theorem readOnly_selects (events : List LoopEvent) (logFile : GoString) :
    Selects (readOnlyEnv events) (demoFlags 1 logFile) demoPorts (ascii "/dev/ttyUSB0") :=
  { bits := (by decide : 0 < 64), ports := rfl, fits := (by decide : 2 < 2 ^ 64),
    inUint := (by decide : 1 < 2 ^ 64), lower := Nat.le_refl 1,
    upper := (by decide : 1 ≤ 2), name := rfl }

/-- Claim C2 at a concrete input: bytes with a newline in the middle. -/
theorem logWriter_write_tees_witness :
    (LogWriter.Write (demoEnv []) { file := some { name := ascii "out.log" } } (ascii "a\nb")
        { World.init with logFile := Res.opened }).1.console = [] ++ ascii "a\nb"
      ∧ (LogWriter.Write (demoEnv []) { file := some { name := ascii "out.log" } }
        (ascii "a\nb") { World.init with logFile := Res.opened }).1.logData
          = [] ++ ascii "a\nb" :=
  ⟨(logWriter_write_tees (demoEnv []) { name := ascii "out.log" } (ascii "a\nb")
      { World.init with logFile := Res.opened } rfl rfl).1,
    (logWriter_write_tees (demoEnv []) { name := ascii "out.log" } (ascii "a\nb")
      { World.init with logFile := Res.opened } rfl rfl).2.1⟩

/-- Claim C5 at a concrete input: `-port 2` with two ports. -/
theorem run_opens_iff_valid_index_witness :
    (opensOf (run (demoEnv []) (demoFlags 2 [])).world.trace ≠ [] ↔ 1 ≤ 2 ∧ 2 ≤ 2)
      ∧ ∃ p, demoPorts.get? (uintSub 64 2 1) = some p
          ∧ demoPorts.get? (2 - 1) = some p
          ∧ opensOf (run (demoEnv []) (demoFlags 2 [])).world.trace = [p] :=
  ⟨(run_opens_iff_valid_index (demoEnv []) (demoFlags 2 []) demoPorts (by decide) rfl
      (by decide) (by decide) (by decide)).1,
    ((run_opens_iff_valid_index (demoEnv []) (demoFlags 2 []) demoPorts (by decide) rfl
      (by decide) (by decide) (by decide)).2 (by decide) (by decide)).2⟩

/-- The run of the C5 example, evaluated: the second port is opened. -/
theorem run_opens_example :
    opensOf (run (demoEnv []) (demoFlags 2 [])).world.trace = [ascii "/dev/ttyUSB1"]
      ∧ opensOf (run (demoEnv []) (demoFlags 1 [])).world.trace = [ascii "/dev/ttyUSB0"] := by
  decide

/-- The run of the C6 example, evaluated: the console for `-port 0` with
two ports. -/
theorem run_invalid_example :
    (run (demoEnv []) (demoFlags 0 [])).world.console
      = ascii "You must select a valid serial port. Options:\n"
        ++ ascii " 1: /dev/ttyUSB0\n" ++ ascii " 2: /dev/ttyUSB1\n"
        ++ ascii "Run with \"-help\" for more information.\n" := by
  rw [run_invalid (demoEnv []) (demoFlags 0 []) demoPorts rfl (by decide) (by decide)
    (Or.inl (by decide))]
  rw [(printf_obs _ _).2.2.2.2.2.2.2.1, printOptions_console demoPorts _ 0 _ rfl]
  decide

/-- Claim C6 at the input of the specification: `-port 0` with two ports. -/
theorem run_invalid_selection_lists_ports_witness :
    (run (demoEnv []) (demoFlags 0 [])).status = Status.exited 1
      ∧ opensOf (run (demoEnv []) (demoFlags 0 [])).world.trace = [] :=
  ⟨(run_invalid_selection_lists_ports (demoEnv []) (demoFlags 0 []) demoPorts rfl
      (by decide) (by decide) (Or.inl (by decide))).1,
    (run_invalid_selection_lists_ports (demoEnv []) (demoFlags 0 []) demoPorts rfl
      (by decide) (by decide) (Or.inl (by decide))).2.1⟩

/-- Claim C10, the counterexample. With `-port 1 -log_file out.log` on a
machine where the file cannot be created, the run fails with status 1, and
the selected port /dev/ttyUSB0 has been opened (and closed again): the open
comes before the creation of the file. -/
theorem log_create_failure_port_was_opened :
    (readOnlyEnv []).createErr (ascii "out.log") = some (ascii "permission denied")
      ∧ (run (readOnlyEnv []) (demoFlags 1 (ascii "out.log"))).status = Status.exited 1
      ∧ opensOf (run (readOnlyEnv []) (demoFlags 1 (ascii "out.log"))).world.trace
          = [ascii "/dev/ttyUSB0"]
      ∧ ¬ opensOf (run (readOnlyEnv []) (demoFlags 1 (ascii "out.log"))).world.trace = []
      ∧ (run (readOnlyEnv []) (demoFlags 1 (ascii "out.log"))).world.trace
          = [Op.getPortsList, Op.openPort (ascii "/dev/ttyUSB0") 9600, Op.setReadTimeout 500,
              Op.createFile (ascii "out.log"),
              Op.print (ascii "Error establishing log file: Failed creating log file out.log: permission denied\n"),
              Op.portClose] := by
  decide

/-- Claim C10 as amended, at the input of the counterexample. -/
theorem run_log_create_failure_closes_port_witness :
    (run (readOnlyEnv []) (demoFlags 1 (ascii "out.log"))).status = Status.exited 1
      ∧ opensOf (run (readOnlyEnv []) (demoFlags 1 (ascii "out.log"))).world.trace
          = [ascii "/dev/ttyUSB0"]
      ∧ (run (readOnlyEnv []) (demoFlags 1 (ascii "out.log"))).world.port = Res.closed :=
  ⟨(run_log_create_failure_closes_port (readOnlyEnv []) (demoFlags 1 (ascii "out.log"))
      demoPorts (ascii "/dev/ttyUSB0") (ascii "permission denied") (readOnly_selects _ _) rfl
      (by decide) rfl).1,
    (run_log_create_failure_closes_port (readOnlyEnv []) (demoFlags 1 (ascii "out.log"))
      demoPorts (ascii "/dev/ttyUSB0") (ascii "permission denied") (readOnly_selects _ _) rfl
      (by decide) rfl).2.2.2.1,
    (run_log_create_failure_closes_port (readOnlyEnv []) (demoFlags 1 (ascii "out.log"))
      demoPorts (ascii "/dev/ttyUSB0") (ascii "permission denied") (readOnly_selects _ _) rfl
      (by decide) rfl).2.2.2.2.2.1⟩

/-- Claim C1 as amended, at a concrete input: "hello", an empty read and two
lines are returned to a run with a log file. -/
theorem run_forwards_exactly_reads_witness :
    Selects (demoEnv helloScript) (demoFlags 1 (ascii "out.log")) demoPorts
        (ascii "/dev/ttyUSB0")
      ∧ (run (demoEnv helloScript) (demoFlags 1 (ascii "out.log"))).status = Status.running
      ∧ forwardsOf (run (demoEnv helloScript) (demoFlags 1 (ascii "out.log"))).world.trace
          = [ascii "hello", [], ascii "x\ny"].filter (fun b => decide (1 ≤ b.length))
      ∧ (run (demoEnv helloScript) (demoFlags 1 (ascii "out.log"))).world.logData
          = [ascii "hello", [], ascii "x\ny"].flatten :=
  ⟨demo_selects _ _,
    ((run_forwards_exactly_reads (demoEnv helloScript) (demoFlags 1 (ascii "out.log"))
      demoPorts (ascii "/dev/ttyUSB0") (demo_selects _ _) rfl (fun _ => rfl)).2.1
      [ascii "hello", [], ascii "x\ny"] (by decide) rfl).1,
    ((run_forwards_exactly_reads (demoEnv helloScript) (demoFlags 1 (ascii "out.log"))
      demoPorts (ascii "/dev/ttyUSB0") (demo_selects _ _) rfl (fun _ => rfl)).2.1
      [ascii "hello", [], ascii "x\ny"] (by decide) rfl).2.2.1,
    ((run_forwards_exactly_reads (demoEnv helloScript) (demoFlags 1 (ascii "out.log"))
      demoPorts (ascii "/dev/ttyUSB0") (demo_selects _ _) rfl (fun _ => rfl)).2.1
      [ascii "hello", [], ascii "x\ny"] (by decide) rfl).2.2.2.2.2 (by decide) (fun _ => rfl)⟩

/-- The run of the C1 example, evaluated: the two non-empty reads are handed
over and the file holds "hellox\ny". -/
theorem run_forwards_example :
    forwardsOf (run (demoEnv helloScript) (demoFlags 1 (ascii "out.log"))).world.trace
        = [ascii "hello", ascii "x\ny"]
      ∧ (run (demoEnv helloScript) (demoFlags 1 (ascii "out.log"))).world.logData
        = ascii "hellox\ny"
      ∧ (run (demoEnv helloScript) (demoFlags 1 (ascii "out.log"))).world.console
        = ascii "Reading from device /dev/ttyUSB0. Press ctrl+C to quit.\nhellox\ny" := by
  decide

/-- Claim C1, the counterexample. With `-log_file` set on a machine where
every write to the file stops after two bytes, the successful read "hello"
is handed to `outputDst` in full, and the log file holds "he": its contents
are not the concatenation of the bytes read. -/
theorem log_file_short_after_failed_write :
    readsOf (run (fullDiskEnv (LoopEvent.proceed :: readCycles [ascii "hello"]))
        (demoFlags 1 (ascii "out.log"))).world.trace = [{ bytes := ascii "hello", err := none }]
      ∧ forwardsOf (run (fullDiskEnv (LoopEvent.proceed :: readCycles [ascii "hello"]))
        (demoFlags 1 (ascii "out.log"))).world.trace = [ascii "hello"]
      ∧ (run (fullDiskEnv (LoopEvent.proceed :: readCycles [ascii "hello"]))
        (demoFlags 1 (ascii "out.log"))).world.logData = ascii "he"
      ∧ ¬ (run (fullDiskEnv (LoopEvent.proceed :: readCycles [ascii "hello"]))
        (demoFlags 1 (ascii "out.log"))).world.logData = ascii "hello" := by
  decide

/-- Claim C3, the failing input. After "hello" the read fails with "device
disconnected". When the main goroutine returns undisturbed, the run prints
the message and returns status 1. When an interrupt is delivered after
`close(c)` and before the return, `os/signal` sends on the closed channel:
the process is stopped by a panic, with the port still open, and no status 1
is returned. -/
theorem read_error_then_interrupt_panics :
    (run (demoEnv failScript) (demoFlags 1 [])).status = Status.exited 1
      ∧ (run (demoEnv failScript) (demoFlags 1 [])).world.console
        = ascii "Reading from device /dev/ttyUSB0. Press ctrl+C to quit.\nhello"
          ++ ascii "Failed reading from /dev/ttyUSB0: device disconnected\n"
      ∧ (run (demoEnv failScript) (demoFlags 1 [])).world.port = Res.closed
      ∧ (run (demoEnv lateInterruptScript) (demoFlags 1 [])).status = Status.crashed
      ∧ (run (demoEnv lateInterruptScript) (demoFlags 1 [])).world.console
        = ascii "Reading from device /dev/ttyUSB0. Press ctrl+C to quit.\nhello"
          ++ ascii "Failed reading from /dev/ttyUSB0: device disconnected\n"
      ∧ (run (demoEnv lateInterruptScript) (demoFlags 1 [])).world.port = Res.opened
      ∧ ¬ (run (demoEnv lateInterruptScript) (demoFlags 1 [])).status = Status.exited 1 := by
  decide

/-- Claim C9 at a concrete input: a read fails while a log file is open. -/
theorem run_releases_port_and_log_witness :
    (run (demoEnv failScript) (demoFlags 1 (ascii "out.log"))).status = Status.exited 1
      ∧ (run (demoEnv failScript) (demoFlags 1 (ascii "out.log"))).world.port = Res.closed
      ∧ (run (demoEnv failScript) (demoFlags 1 (ascii "out.log"))).world.logFile
          = Res.closed :=
  have hret : (run (demoEnv failScript) (demoFlags 1 (ascii "out.log"))).status
      = Status.exited 1 :=
    (run_releases_port_and_log (demoEnv failScript) (demoFlags 1 (ascii "out.log")) demoPorts
      (ascii "/dev/ttyUSB0") (demo_selects _ _) rfl).2.2.2 (fun _ => rfl) [ascii "hello"] []
      [] (ascii "device disconnected") [] (by decide) (by decide) rfl
  ⟨hret,
    ((run_releases_port_and_log (demoEnv failScript) (demoFlags 1 (ascii "out.log")) demoPorts
      (ascii "/dev/ttyUSB0") (demo_selects _ _) rfl).1 1 hret).1,
    ((run_releases_port_and_log (demoEnv failScript) (demoFlags 1 (ascii "out.log")) demoPorts
      (ascii "/dev/ttyUSB0") (demo_selects _ _) rfl).1 1 hret).2.2 (by decide) rfl⟩

/-- Claim C4, the counterexample. The flag is set after a test that passed
and before the call of `port.Read`: a new read begins all the same; it
fails, and the run is left with status 1, not 0, in the transition system
and in `run` alike. -/
theorem flag_set_then_read_fails :
    Ctl.exec Ctl.init [Move.advance, Move.advance, Move.signal]
        = some { shouldExit := true, readsStarted := 0, phase := Phase.call }
      ∧ Ctl.exec { shouldExit := true, readsStarted := 0, phase := Phase.call }
          [Move.advance, Move.readFail, Move.advance]
        = some { shouldExit := true, readsStarted := 1, phase := Phase.exited 1 }
      ∧ ¬ (∀ (s s1 : Ctl) (ms : List Move), s.shouldExit = true → s.phase.inLoop = true →
            Ctl.exec s ms = some s1 → s1.readsStarted = s.readsStarted)
      ∧ ¬ (∀ (s s1 : Ctl) (ms : List Move) (code : Nat), s.shouldExit = true →
            s.phase.inLoop = true → Ctl.exec s ms = some s1 →
            s1.phase = Phase.exited code → code = 0)
      ∧ (run (demoEnv lateFlagScript) (demoFlags 1 [])).status = Status.exited 1
      ∧ (run (demoEnv lateFlagScript) (demoFlags 1 [])).world.trace
        = [Op.getPortsList, Op.openPort (ascii "/dev/ttyUSB0") 9600, Op.setReadTimeout 500,
            Op.notify,
            Op.print (ascii "Reading from device /dev/ttyUSB0. Press ctrl+C to quit.\n"),
            Op.print (ascii "Signal interrupt pressed. Exiting after next read...\n"),
            Op.readCall,
            Op.read { bytes := [], err := some (ascii "device disconnected") },
            Op.closeChan,
            Op.print (ascii "Failed reading from /dev/ttyUSB0: device disconnected\n"),
            Op.portClose] := by
  refine ⟨by decide, by decide, ?_, ?_, by decide, by decide⟩
  · intro h
    have := h { shouldExit := true, readsStarted := 0, phase := Phase.call }
      { shouldExit := true, readsStarted := 1, phase := Phase.exited 1 }
      [Move.advance, Move.readFail, Move.advance] rfl rfl (by decide)
    simp at this
  · intro h
    have := h { shouldExit := true, readsStarted := 0, phase := Phase.call }
      { shouldExit := true, readsStarted := 1, phase := Phase.exited 1 }
      [Move.advance, Move.readFail, Move.advance] 1 rfl rfl (by decide) rfl
    omega

/-- Claim C4 as amended, at a concrete input: the flag is set while the
second read is in flight; that read completes and the loop is left. -/
theorem after_flag_at_most_one_read_witness :
    Ctl.exec { shouldExit := true, readsStarted := 2, phase := Phase.reading }
        [Move.readOk, Move.advance]
        = some { shouldExit := true, readsStarted := 2, phase := Phase.exited 0 }
      ∧ (2 : Nat) ≤ 2 + 1
      ∧ [Move.readOk, Move.advance].length ≤ 3 :=
  ⟨by decide,
    (after_flag_at_most_one_read
      { shouldExit := true, readsStarted := 2, phase := Phase.reading }
      { shouldExit := true, readsStarted := 2, phase := Phase.exited 0 }
      [Move.readOk, Move.advance] rfl rfl (by decide)).2.2.1,
    (after_flag_at_most_one_read
      { shouldExit := true, readsStarted := 2, phase := Phase.reading }
      { shouldExit := true, readsStarted := 2, phase := Phase.exited 0 }
      [Move.readOk, Move.advance] rfl rfl (by decide)).2.2.2.2.1⟩

end SerialReader
